import Mathlib

/-!
Verification of the cross-database query/aggregation layer of the
academic-dash-app repository (files `app/mysql_utils.py` and
`app/mongodb_utils.py`).

The relational backend is modelled as an explicit state (`MySQLState`): one
list of rows per table of the schema contract, plus one flag per lazily
provisioned `is_deleted` column recording whether that column currently
exists.  Row flags are `Option Bool` (SQL `NULL` is `none`); the stored
`is_deleted` field of a row is meaningful only while the corresponding
column-exists flag is set.  The document backend is a pair of collections
(`MongoDB`).  Numeric score values are modelled as exact rationals; row
counts and years as integers.

Queries become pure functions of the state; soft-delete / restore calls
become state transformers returning `Bool × MySQLState`, where returning the
input state unchanged models a rolled-back (or never-committed) transaction.
Connection retry is modelled over an oracle giving the outcome of each
connect attempt, and the per-function `try/except` wrappers are modelled by
`Backend`-taking variants that return the logged-and-degraded default on any
backend error.  Logging (`print`) is an inert side effect and is not
modelled; index creation (`CREATE INDEX`, `create_index`) does not affect
query results and is likewise not modelled.
-/

namespace AcademicDash

/-! ### Generic list helpers

`dedupF` keeps the first occurrence of each element, matching the iteration
order of a Python dict built by insertion (`dict`/`$group` key order is what
determines pre-sort order in the embedded queries).  `sortPairsDesc` is a
stable sort of key/value pairs by descending value, standing in for
`ORDER BY ... DESC` / `$sort: {..: -1}` / Python `list.sort(reverse=True)`.
-/

def dedupF [DecidableEq α] : List α → List α
  | [] => []
  | a :: l => a :: (dedupF l).filter (fun b => b ≠ a)

theorem dedupF_nil [DecidableEq α] : dedupF ([] : List α) = [] := rfl

theorem dedupF_cons [DecidableEq α] (a : α) (l : List α) :
    dedupF (a :: l) = a :: (dedupF l).filter (fun b => b ≠ a) := rfl

theorem mem_dedupF [DecidableEq α] {x : α} {l : List α} :
    x ∈ dedupF l ↔ x ∈ l := by
  induction l with
  | nil => simp [dedupF]
  | cons a l ih =>
    rw [dedupF_cons]
    by_cases hxa : x = a
    · subst hxa; simp
    · simp [List.mem_filter, hxa, ih]

theorem nodup_dedupF [DecidableEq α] (l : List α) : (dedupF l).Nodup := by
  induction l with
  | nil => simp [dedupF]
  | cons a l ih =>
    rw [dedupF_cons]
    refine List.nodup_cons.2 ⟨?_, ih.filter _⟩
    intro hmem
    simp [List.mem_filter] at hmem

def sortPairsDesc [LinearOrder β] (l : List (α × β)) : List (α × β) :=
  l.insertionSort (fun p q => q.2 ≤ p.2)

theorem sortPairsDesc_perm [LinearOrder β] (l : List (α × β)) :
    (sortPairsDesc l).Perm l :=
  List.perm_insertionSort _ l

theorem sortPairsDesc_pairwise [LinearOrder β] (l : List (α × β)) :
    (sortPairsDesc l).Pairwise (fun p q => q.2 ≤ p.2) := by
  haveI htot : IsTotal (α × β) (fun p q : α × β => q.2 ≤ p.2) :=
    ⟨fun p q => le_total q.2 p.2⟩
  haveI htr : IsTrans (α × β) (fun p q : α × β => q.2 ≤ p.2) :=
    ⟨fun _ _ _ h1 h2 => le_trans h2 h1⟩
  exact List.sorted_insertionSort _ l

theorem sortPairsDesc_sorted_snd [LinearOrder β] (l : List (α × β)) :
    ((sortPairsDesc l).map Prod.snd).Sorted (· ≥ ·) :=
  List.Pairwise.map _ (fun {p q} h => h) (sortPairsDesc_pairwise l)

theorem mem_sortPairsDesc [LinearOrder β] {l : List (α × β)} {p : α × β} :
    p ∈ sortPairsDesc l ↔ p ∈ l :=
  (sortPairsDesc_perm l).mem_iff

/-- Elements of the truncated sorted list come from the original list. -/
theorem mem_of_mem_take_sortPairsDesc [LinearOrder β] {l : List (α × β)}
    {p : α × β} {k : ℕ} (h : p ∈ (sortPairsDesc l).take k) : p ∈ l :=
  mem_sortPairsDesc.1 (List.mem_of_mem_take h)

/-- An element of the input that did not make the cut of the top-`k`
truncation is dominated by everything that did, and the truncation is full. -/
theorem take_sortPairsDesc_topness [LinearOrder β] {l : List (α × β)}
    {p : α × β} {k : ℕ} (hp : p ∈ l) (hnot : p ∉ (sortPairsDesc l).take k) :
    ((sortPairsDesc l).take k).length = k ∧
      ∀ q ∈ (sortPairsDesc l).take k, p.2 ≤ q.2 := by
  set s := sortPairsDesc l with hs
  have hps : p ∈ s := mem_sortPairsDesc.2 hp
  have hsplit : s.take k ++ s.drop k = s := List.take_append_drop k s
  have hmem' : p ∈ s.take k ++ s.drop k := by rw [hsplit]; exact hps
  have hdrop : p ∈ s.drop k := by
    rcases List.mem_append.1 hmem' with h | h
    · exact absurd h hnot
    · exact h
  have hpw : (s.take k ++ s.drop k).Pairwise (fun p q : α × β => q.2 ≤ p.2) := by
    rw [hsplit]; exact sortPairsDesc_pairwise l
  have hcross := (List.pairwise_append.1 hpw).2.2
  constructor
  · have hklen : k < s.length := by
      by_contra hk
      push_neg at hk
      have : s.drop k = [] := List.drop_eq_nil_of_le hk
      rw [this] at hdrop
      exact absurd hdrop (List.not_mem_nil p)
    simp [List.length_take, Nat.min_eq_left (Nat.le_of_lt hklen)]
  · intro q hq
    exact hcross q hq p hdrop

/-- Substring test on character lists: `containsSub pat l` holds when `pat`
occurs contiguously in `l`.  Models SQL `LIKE '%pat%'` (collation issues such
as case-insensitivity are outside the model). -/
def isPrefixList [DecidableEq α] : List α → List α → Bool
  | [], _ => true
  | _ :: _, [] => false
  | a :: pat, b :: l => a = b && isPrefixList pat l

def containsSub [DecidableEq α] (pat : List α) : List α → Bool
  | [] => pat.isEmpty
  | b :: l => isPrefixList pat (b :: l) || containsSub pat l

/-- SQL `s LIKE '%pat%'`. -/
def likeContains (s pat : String) : Bool := containsSub pat.toList s.toList

/-! ### Python string primitives

`delete_keyword_mysql` validates its id with `keyword_id.strip() == ""` and
converts it with `int(keyword_id)`.  Both are modelled over the character
list of the string (Python `int` accepts surrounding whitespace and an
optional sign over a nonempty digit run; exotic forms such as underscore
separators are outside the model). -/

def stripChars (l : List Char) : List Char :=
  ((l.dropWhile Char.isWhitespace).reverse.dropWhile Char.isWhitespace).reverse

def pyStrip (s : String) : String := String.mk (stripChars s.toList)

def parseDigits : List Char → Option ℕ
  | [] => none
  | ds =>
    if ds.all Char.isDigit then
      some (ds.foldl (fun acc c => 10 * acc + (c.toNat - '0'.toNat)) 0)
    else none

/-- Python `int(s)`, returning `none` when a `ValueError` would be raised. -/
def pyInt? (s : String) : Option ℤ :=
  match stripChars s.toList with
  | '-' :: ds => (parseDigits ds).map (fun n => -(n : ℤ))
  | '+' :: ds => (parseDigits ds).map (fun n => (n : ℤ))
  | ds => (parseDigits ds).map (fun n => (n : ℤ))

/-- MySQL `ROUND(x, 2)`.  Ties (exact multiples of `0.005`) are modelled with
round-half-up; the claims under verification do not exercise tie behaviour. -/
def round2 (x : ℚ) : ℚ := ((round (x * 100) : ℤ) : ℚ) / 100

/-! ### Relational data model

One structure per table of the schema contract
(`university(id, name, photo_url)`, `faculty(id, name, university_id,
is_deleted)`, `keyword(id, name, is_deleted)`, `faculty_keyword(faculty_id,
keyword_id, score)`, `publication(id, year, num_citations)`,
`publication_keyword(publication_id, keyword_id, score)`,
`faculty_publication(faculty_id, publication_id)`).  The `is_deleted`
columns are lazily provisioned, so `MySQLState` carries one existence flag
per such column; a row's stored flag is meaningful only while the column
exists, and provisioning (`ALTER TABLE .. ADD COLUMN is_deleted BOOLEAN
DEFAULT FALSE`) fills every existing row with `FALSE`.  Keyword ids reach
`delete_keyword_mysql` as strings and their storage type is not pinned by
the source, so they are modelled as strings; the numeric leg of the
dual-typed lookup compares under numeric coercion of the stored id. -/

structure UniversityRow where
  id : ℤ
  name : String
  photo_url : String
deriving DecidableEq

structure FacultyRow where
  id : ℤ
  name : String
  university_id : ℤ
  is_deleted : Option Bool
deriving DecidableEq

structure KeywordRow where
  id : String
  name : String
  is_deleted : Option Bool
deriving DecidableEq

structure FacultyKeywordRow where
  faculty_id : ℤ
  keyword_id : String
  score : ℚ
deriving DecidableEq

structure PublicationRow where
  id : ℤ
  year : ℤ
  num_citations : ℤ
deriving DecidableEq

structure PublicationKeywordRow where
  publication_id : ℤ
  keyword_id : String
  score : ℚ
deriving DecidableEq

structure FacultyPublicationRow where
  faculty_id : ℤ
  publication_id : ℤ
deriving DecidableEq

structure MySQLState where
  university : List UniversityRow
  faculty : List FacultyRow
  keyword : List KeywordRow
  faculty_keyword : List FacultyKeywordRow
  publication : List PublicationRow
  publication_keyword : List PublicationKeywordRow
  faculty_publication : List FacultyPublicationRow
  faculty_has_col : Bool
  keyword_has_col : Bool
deriving DecidableEq

/-! ### Listing queries (`mysql_utils.py`) -/

/-- `get_all_keywords`: `SELECT DISTINCT(name) FROM keyword` — no
`is_deleted` filter appears in the query.  `DISTINCT` is modelled as keeping
the first occurrence of each name. -/
def get_all_keywords (st : MySQLState) : List String :=
  dedupF (st.keyword.map (fun k => k.name))

/-- Join rows of the `TOP_UNIVERSITIES` view of
`find_universities_with_faculties_working_keywords`: cartesian product of
`university, faculty, faculty_keyword, keyword` restricted by the `WHERE`
clause (`keyword.name LIKE '%kw%'`), one `(university.name, faculty.id)` row
per match.  No `is_deleted` condition appears in the view. -/
def fuwk_rows (st : MySQLState) (kw : String) : List (String × ℤ) :=
  st.university.flatMap fun u =>
    st.faculty.flatMap fun f =>
      st.faculty_keyword.flatMap fun fk =>
        (st.keyword.filter fun k =>
          u.id == f.university_id && f.id == fk.faculty_id &&
            fk.keyword_id == k.id && likeContains k.name kw).map
          fun _k => (u.name, f.id)

/-- `find_universities_with_faculties_working_keywords`: group the view rows
by university name, count distinct faculty ids, order by count descending,
`LIMIT 5`. -/
def find_universities_with_faculties_working_keywords
    (st : MySQLState) (kw : String) : List (String × ℕ) :=
  let rows := fuwk_rows st kw
  let grouped := (dedupF (rows.map Prod.fst)).map fun uname =>
    (uname, (dedupF ((rows.filter (fun r => r.1 == uname)).map Prod.snd)).length)
  (sortPairsDesc grouped).take 5

/-- `find_faculty_relevant_to_keyword`: the prepared statement references
`faculty.is_deleted = FALSE` (and no keyword flag), so it raises — and the
function returns `[]` — when the `faculty` column does not exist yet.  Rows:
exact keyword-name match, `faculty_keyword.score >= 50`. -/
def find_faculty_relevant_to_keyword
    (st : MySQLState) (kw : String) : List (String × String × String) :=
  if st.faculty_has_col = false then []
  else
    st.university.flatMap fun u =>
      st.faculty.flatMap fun f =>
        st.faculty_keyword.flatMap fun fk =>
          (st.keyword.filter fun k =>
            u.id == f.university_id && f.id == fk.faculty_id &&
              fk.keyword_id == k.id && k.name == kw &&
              decide ((50 : ℚ) ≤ fk.score) && f.is_deleted == some false).map
            fun _k => (toString f.id, f.name, u.name)

/-- Join rows of `find_most_popular_keywords_sql`:
`keyword, publication_keyword, publication` restricted by the joins and
`publication.year >= y`; each row carries `(keyword.id, keyword.name)`. -/
def fmpk_sql_rows (st : MySQLState) (y : ℤ) : List (String × String) :=
  st.keyword.flatMap fun k =>
    st.publication_keyword.flatMap fun pk =>
      (st.publication.filter fun p =>
        k.id == pk.keyword_id && pk.publication_id == p.id &&
          decide (y ≤ p.year)).map
        fun _p => (k.id, k.name)

/-- `find_most_popular_keywords_sql`: `GROUP BY keyword_id` (not name),
display `keyword.name` of the group, `ORDER BY COUNT(..) DESC LIMIT 10`. -/
def find_most_popular_keywords_sql (st : MySQLState) (y : ℤ) :
    List (String × ℕ) :=
  let rows := fmpk_sql_rows st y
  let grouped := (dedupF (rows.map Prod.fst)).map fun kid =>
    (((rows.find? (fun r => r.1 == kid)).map Prod.snd).getD "",
      (rows.filter (fun r => r.1 == kid)).length)
  (sortPairsDesc grouped).take 10

/-! ### Schema evolution (the `is_deleted` check-and-add blocks)

The same inline block appears in `get_faculty_count` (faculty table) and in
`get_keyword_count_mysql` / `delete_keyword_mysql` / `restore_keyword_mysql`
(keyword table): query `INFORMATION_SCHEMA.COLUMNS` for the column; if
absent, `ALTER TABLE .. ADD COLUMN is_deleted BOOLEAN DEFAULT FALSE` and
commit, swallowing any `ALTER` failure.  `alterOk` injects whether the
`ALTER` statement succeeds; the returned `Bool` records whether an `ALTER`
was executed successfully (the claim's "performs an ALTER"). -/

def provisionFacultyCol (st : MySQLState) : MySQLState :=
  { st with
    faculty_has_col := true
    faculty := st.faculty.map fun f => { f with is_deleted := some false } }

def provisionKeywordCol (st : MySQLState) : MySQLState :=
  { st with
    keyword_has_col := true
    keyword := st.keyword.map fun k => { k with is_deleted := some false } }

def faculty_ensure_is_deleted_column (alterOk : Bool) (st : MySQLState) :
    MySQLState × Bool :=
  if st.faculty_has_col then (st, false)
  else if alterOk then (provisionFacultyCol st, true)
  else (st, false)

def keyword_ensure_is_deleted_column (alterOk : Bool) (st : MySQLState) :
    MySQLState × Bool :=
  if st.keyword_has_col then (st, false)
  else if alterOk then (provisionKeywordCol st, true)
  else (st, false)

/-! ### Count queries -/

/-- `get_faculty_count`: ensure the column, then
`SELECT COUNT(*) FROM faculty WHERE is_deleted = FALSE` (`NULL` flags are
excluded by `= FALSE`); if the column still does not exist the count query
raises and the handler returns `0`. -/
def get_faculty_count (alterOk : Bool) (st : MySQLState) : ℕ × MySQLState :=
  let st1 := (faculty_ensure_is_deleted_column alterOk st).1
  if st1.faculty_has_col then
    ((st1.faculty.filter fun f => f.is_deleted == some false).length, st1)
  else (0, st1)

/-- `get_keyword_count_mysql`: ensure the column, then
`SELECT COUNT(*) FROM keyword WHERE is_deleted IS NULL OR is_deleted =
FALSE`; on a still-missing column the query raises and the handler
returns `0`. -/
def get_keyword_count_mysql (alterOk : Bool) (st : MySQLState) :
    ℕ × MySQLState :=
  let st1 := (keyword_ensure_is_deleted_column alterOk st).1
  if st1.keyword_has_col then
    ((st1.keyword.filter fun k =>
      k.is_deleted == none || k.is_deleted == some false).length, st1)
  else (0, st1)

/-! ### Soft delete / restore transactions

Returning the input state models a rolled-back (or raised-before-commit)
transaction; a changed state is only returned together with `true` when the
code path commits. -/

/-- `delete_faculty`: `UPDATE faculty SET is_deleted = TRUE WHERE id = %s`
then an unconditional commit and `return True` — the affected-row count is
never consulted.  When the `is_deleted` column does not exist the `UPDATE`
raises, the handler rolls back and returns `False`. -/
def delete_faculty (st : MySQLState) (fid : ℤ) : Bool × MySQLState :=
  if st.faculty_has_col = false then (false, st)
  else
    (true,
      { st with
        faculty := st.faculty.map fun f =>
          if f.id == fid then { f with is_deleted := some true } else f })

/-- `restore_faculty`:
`UPDATE faculty SET is_deleted = FALSE WHERE is_deleted = TRUE`, commit,
`return True`.  No column check precedes the `UPDATE`, so a missing
`is_deleted` column raises and the handler rolls back and returns
`False`. -/
def restore_faculty (st : MySQLState) : Bool × MySQLState :=
  if st.faculty_has_col = false then (false, st)
  else
    (true,
      { st with
        faculty := st.faculty.map fun f =>
          if f.is_deleted == some true then { f with is_deleted := some false }
          else f })

/-- Numeric leg of the dual-typed keyword lookup: `WHERE id = <int>`
matches a stored id under numeric coercion. -/
def kwMatchesInt (n : ℤ) (k : KeywordRow) : Bool := pyInt? k.id == some n

/-- String leg of the dual-typed keyword lookup: `WHERE id = <string>`. -/
def kwMatchesStr (s : String) (k : KeywordRow) : Bool := k.id == s

def markKeywordDeleted (st : MySQLState) (p : KeywordRow → Bool) :
    MySQLState :=
  { st with
    keyword := st.keyword.map fun k =>
      if p k then { k with is_deleted := some true } else k }

/-- Affected-row count of `UPDATE keyword SET is_deleted = TRUE WHERE ..`:
the connector reports rows actually changed, so rows already flagged `TRUE`
do not count. -/
def kwChangedCount (st : MySQLState) (p : KeywordRow → Bool) : ℕ :=
  (st.keyword.filter fun k => p k && !(k.is_deleted == some true)).length

/-- `delete_keyword_mysql`: provision the column (swallowing `ALTER`
failure), reject empty/whitespace ids, then try the id as an integer and
fall back to the string form; commit and return `True` only when a row was
affected, otherwise roll back and return `False`.  When the column is still
missing the `UPDATE` raises and the handler returns `False`. -/
def delete_keyword_mysql (alterOk : Bool) (st : MySQLState) (kid : String) :
    Bool × MySQLState :=
  let st1 := (keyword_ensure_is_deleted_column alterOk st).1
  if pyStrip kid = "" then (false, st1)
  else if st1.keyword_has_col = false then (false, st1)
  else
    match pyInt? kid with
    | some n =>
      if 0 < kwChangedCount st1 (kwMatchesInt n) then
        (true, markKeywordDeleted st1 (kwMatchesInt n))
      else if 0 < kwChangedCount st1 (kwMatchesStr kid) then
        (true, markKeywordDeleted st1 (kwMatchesStr kid))
      else (false, st1)
    | none =>
      if 0 < kwChangedCount st1 (kwMatchesStr kid) then
        (true, markKeywordDeleted st1 (kwMatchesStr kid))
      else (false, st1)

/-- `restore_keyword_mysql`: when the `is_deleted` column does not exist,
provision it (swallowing failure) and return `True` without touching any
row — "no keywords to restore"; otherwise
`UPDATE keyword SET is_deleted = FALSE WHERE is_deleted = TRUE`, commit,
`return True`. -/
def restore_keyword_mysql (alterOk : Bool) (st : MySQLState) :
    Bool × MySQLState :=
  if st.keyword_has_col = false then
    (true, (keyword_ensure_is_deleted_column alterOk st).1)
  else
    (true,
      { st with
        keyword := st.keyword.map fun k =>
          if k.is_deleted == some true then { k with is_deleted := some false }
          else k })

/-! ### KRC (SQL variant) -/

/-- Join rows of `find_top_faculties_with_highest_KRC_keyword_sql`: each row
carries the faculty id (the `GROUP BY` key), the displayed faculty name, and
the term `publication_keyword.score * publication.num_citations`. -/
def krc_sql_rows (st : MySQLState) (kw uni : String) :
    List (ℤ × String × ℚ) :=
  st.faculty.flatMap fun f =>
    st.faculty_publication.flatMap fun fp =>
      st.publication.flatMap fun p =>
        st.publication_keyword.flatMap fun pk =>
          st.keyword.flatMap fun k =>
            (st.university.filter fun u =>
              f.id == fp.faculty_id && fp.publication_id == p.id &&
                p.id == pk.publication_id && pk.keyword_id == k.id &&
                k.name == kw && f.university_id == u.id && u.name == uni).map
              fun _u => (f.id, f.name, pk.score * (p.num_citations : ℚ))

/-- `find_top_faculties_with_highest_KRC_keyword_sql`: `GROUP BY faculty.id`
with `ROUND(SUM(..), 2) AS KRC`, `ORDER BY KRC DESC LIMIT 10` (the sort key
is the rounded alias). -/
def find_top_faculties_with_highest_KRC_keyword_sql
    (st : MySQLState) (kw uni : String) : List (String × ℚ) :=
  let rows := krc_sql_rows st kw uni
  let grouped := (dedupF (rows.map (fun r => r.1))).map fun i =>
    (((rows.find? (fun r => r.1 == i)).map (fun r => r.2.1)).getD "",
      round2 (((rows.filter (fun r => r.1 == i)).map (fun r => r.2.2)).sum))
  (sortPairsDesc grouped).take 10

/-! ### Document data model (`mongodb_utils.py`)

A faculty document carries `name`, `affiliation.name` and the array of
publication ids; a publication document carries `id`, `year`,
`numCitations` and the embedded `keywords` array of `{name, score}` pairs.
A document missing a field is modelled with the default the code supplies
(`""` for names via `.get(.., "")`).  The pipelines identify faculty by the
`name` field (`$group: {_id: "$name"}` and the `faculty_pub_map` of
`university_collaborate_with_mongo` both key on it). -/

structure MKeywordEntry where
  name : String
  score : ℚ
deriving DecidableEq

structure MPublication where
  id : ℤ
  year : ℤ
  numCitations : ℤ
  keywords : List MKeywordEntry
deriving DecidableEq

structure MFaculty where
  name : String
  affiliation : String
  publications : List ℤ
deriving DecidableEq

structure MongoDB where
  faculty : List MFaculty
  publications : List MPublication
deriving DecidableEq

/-- Unwound rows of `find_most_popular_keywords_mongo`:
`$unwind: "$keywords"` then `$match: {year: {$gte: year}}` gives one row per
(publication, embedded keyword entry) pair of a recent-enough publication,
keyed by `keywords.name`. -/
def fmpk_mongo_rows (db : MongoDB) (year : ℤ) : List String :=
  db.publications.flatMap fun p =>
    if decide (year ≤ p.year) then p.keywords.map fun k => k.name else []

/-- `find_most_popular_keywords_mongo`: `$group` by keyword name counting
rows, `$sort: {pubcnt: -1}`, `$limit: 10`. -/
def find_most_popular_keywords_mongo (db : MongoDB) (year : ℤ) :
    List (String × ℕ) :=
  let rows := fmpk_mongo_rows db year
  let grouped := (dedupF rows).map fun kname =>
    (kname, (rows.filter (fun r => r == kname)).length)
  (sortPairsDesc grouped).take 10

/-- Unwound rows of `find_top_faculties_with_highest_KRC_keyword`:
`$match` on affiliation, `$lookup` of publications by id, double `$unwind`,
`$match` on the exact keyword name; each row carries the faculty `name` (the
`$group` key) and the term `keywords.score * numCitations`. -/
def krc_mongo_rows (db : MongoDB) (kw aff : String) : List (String × ℚ) :=
  (db.faculty.filter fun f => f.affiliation == aff).flatMap fun f =>
    (db.publications.filter fun p => f.publications.contains p.id).flatMap
      fun p =>
        (p.keywords.filter fun k => k.name == kw).map fun k =>
          (f.name, k.score * (p.numCitations : ℚ))

/-- `find_top_faculties_with_highest_KRC_keyword`: `$group: {_id: "$name",
KRC: {$sum: ..}}`, `$sort: {KRC: -1}`, `$limit: 10`, then `$project` rounds
the (already sorted) sums to 2 decimal places. -/
def find_top_faculties_with_highest_KRC_keyword (db : MongoDB)
    (kw aff : String) : List (String × ℚ) :=
  let rows := krc_mongo_rows db kw aff
  let grouped := (dedupF (rows.map Prod.fst)).map fun n =>
    (n, ((rows.filter (fun r => r.1 == n)).map Prod.snd).sum)
  ((sortPairsDesc grouped).take 10).map fun e => (e.1, round2 e.2)

/-! ### University collaboration (`university_collaborate_with_mongo`)

The in-process join emulation.  Python sets become `Finset String` (only
membership and cardinality are consumed); the `collaboration_map` dict
becomes an association list in key-insertion order, since dict order feeds
the stable sort.  The per-faculty inner loop over `shared_pubs` performs
repeated set unions into the same dict slot; it is embedded as a single
insertion of the union over the faculty's shared publications. -/

def originFaculty (db : MongoDB) (u : String) : List MFaculty :=
  db.faculty.filter fun f => f.affiliation == u

/-- The `publication_ids` set: ids of publications of faculty at `u`. -/
def originPubIds (db : MongoDB) (u : String) : List ℤ :=
  (originFaculty db u).flatMap fun f => f.publications

def originPubMember (db : MongoDB) (u : String) (p : ℤ) : Bool :=
  (originPubIds db u).contains p

/-- The `faculty_pub_map`: publication id ↦ set of origin-faculty names
holding it (empty for ids outside the origin set, matching
`.get(pub_id, set())`). -/
def facultyPubMap (db : MongoDB) (u : String) (p : ℤ) : Finset String :=
  (((originFaculty db u).filter fun f => f.publications.contains p).map
    (fun f => f.name)).toFinset

/-- The `collaborating_faculty` query: faculty at another affiliation
holding at least one origin publication id. -/
def collabFaculty (db : MongoDB) (u : String) : List MFaculty :=
  db.faculty.filter fun g =>
    !(g.affiliation == u) && g.publications.any (originPubMember db u)

/-- The `shared_pubs` intersection for one collaborating faculty. -/
def sharedPubs (db : MongoDB) (u : String) (g : MFaculty) : List ℤ :=
  g.publications.filter (originPubMember db u)

/-- Union of `faculty_pub_map[p]` over one collaborating faculty's shared
publications: the origin names this faculty contributes to its
university's slot. -/
def contribOfFac (db : MongoDB) (u : String) (g : MFaculty) : Finset String :=
  ((sharedPubs db u g).map (facultyPubMap db u)).foldr (· ∪ ·) ∅

/-- Association-list update with set-union semantics, preserving
key-insertion order like a Python dict. -/
def mapInsert (m : List (String × Finset String)) (k : String)
    (v : Finset String) : List (String × Finset String) :=
  match m with
  | [] => [(k, v)]
  | (k', v') :: rest =>
    if k' = k then (k', v' ∪ v) :: rest else (k', v') :: mapInsert rest k v

def mapLookup : List (String × Finset String) → String → Option (Finset String)
  | [], _ => none
  | (k', v') :: rest, k => if k' = k then some v' else mapLookup rest k

/-- One iteration of the `for faculty in collaborating_faculty` loop:
skip a faculty with an empty affiliation name, otherwise union its
contribution into its university's slot. -/
def collabStep (db : MongoDB) (u : String)
    (m : List (String × Finset String)) (g : MFaculty) :
    List (String × Finset String) :=
  if g.affiliation == "" then m
  else mapInsert m g.affiliation (contribOfFac db u g)

def collabMap (db : MongoDB) (u : String) : List (String × Finset String) :=
  (collabFaculty db u).foldl (collabStep db u) []

/-- `university_collaborate_with_mongo`: early-return `[]` when the origin
university has no publication ids; otherwise weight each collaborating
university by the size of its accumulated origin-faculty set, sort by
weight descending (stable), return the top 10. -/
def university_collaborate_with_mongo (db : MongoDB) (u : String) :
    List (String × ℕ) :=
  if originPubIds db u = [] then []
  else
    (sortPairsDesc ((collabMap db u).map fun e => (e.1, e.2.card))).take 10

/-! ### Connection acquisition with bounded retry

`get_db_connection` and `get_mongo_connection` run the same loop:
`for attempt in range(1, 4)`, try to connect, return on success; on failure
sleep 2 seconds if another attempt remains, else re-raise.  The connector is
abstracted as an oracle from the attempt number to that attempt's outcome;
each function returns the overall outcome (`Except` models raising) paired
with the total seconds slept.  `fuel` is the number of attempts still
allowed, including the current one. -/

def retryLoop (oracle : ℕ → Except E C) : ℕ → ℕ → Except E C × ℕ
  | attempt, 0 => (oracle attempt, 0)
  | attempt, 1 => (oracle attempt, 0)
  | attempt, fuel + 2 =>
    match oracle attempt with
    | .ok c => (.ok c, 0)
    | .error _ =>
      let r := retryLoop oracle (attempt + 1) (fuel + 1)
      (r.1, r.2 + 2)

def get_db_connection (oracle : ℕ → Except E C) : Except E C × ℕ :=
  retryLoop oracle 1 3

def get_mongo_connection (oracle : ℕ → Except E C) : Except E C × ℕ :=
  retryLoop oracle 1 3

/-! ### The per-function `try/except` wrappers

Every query function wraps its body in `try/except`, logs on failure, and
returns its degraded default (`[]`, or `0` for counts).  A backend is the
connection-acquisition outcome (`conn`, the result of the retried
`get_db_connection` / `get_mongo_connection`, where `Except.error` models
the re-raised final failure) together with whether query execution itself
raises (`execFails`, covering `cursor.execute` / `aggregate` / `find`
failures).  `runQuery` is the shared shape of the `try/except` around a
read-only body. -/

inductive DBError where
  | connection (msg : String)
  | query (msg : String)
deriving DecidableEq

structure Backend (σ : Type) where
  conn : Except DBError σ
  execFails : Bool

def runQuery (b : Backend σ) (dflt : α) (q : σ → α) : α :=
  match b.conn with
  | .error _ => dflt
  | .ok st => if b.execFails then dflt else q st

def find_most_popular_keywords_sql_run (b : Backend MySQLState) (y : ℤ) :
    List (String × ℕ) :=
  runQuery b [] fun st => find_most_popular_keywords_sql st y

def get_all_keywords_run (b : Backend MySQLState) : List String :=
  runQuery b [] fun st => get_all_keywords st

def find_universities_with_faculties_working_keywords_run
    (b : Backend MySQLState) (kw : String) : List (String × ℕ) :=
  runQuery b [] fun st => find_universities_with_faculties_working_keywords st kw

def find_faculty_relevant_to_keyword_run (b : Backend MySQLState)
    (kw : String) : List (String × String × String) :=
  runQuery b [] fun st => find_faculty_relevant_to_keyword st kw

def find_top_faculties_with_highest_KRC_keyword_sql_run
    (b : Backend MySQLState) (kw uni : String) : List (String × ℚ) :=
  runQuery b [] fun st => find_top_faculties_with_highest_KRC_keyword_sql st kw uni

def get_faculty_count_run (b : Backend MySQLState) (alterOk : Bool) : ℕ :=
  runQuery b 0 fun st => (get_faculty_count alterOk st).1

def get_keyword_count_mysql_run (b : Backend MySQLState) (alterOk : Bool) : ℕ :=
  runQuery b 0 fun st => (get_keyword_count_mysql alterOk st).1

def find_most_popular_keywords_mongo_run (b : Backend MongoDB) (y : ℤ) :
    List (String × ℕ) :=
  runQuery b [] fun db => find_most_popular_keywords_mongo db y

def find_top_faculties_with_highest_KRC_keyword_run (b : Backend MongoDB)
    (kw aff : String) : List (String × ℚ) :=
  runQuery b [] fun db => find_top_faculties_with_highest_KRC_keyword db kw aff

def university_collaborate_with_mongo_run (b : Backend MongoDB) (u : String) :
    List (String × ℕ) :=
  runQuery b [] fun db => university_collaborate_with_mongo db u

/-! ### Specification-side definitions

The following definitions transcribe the wording of the specification's
claims (not the code) and are used to state refinement theorems against the
embedded queries above. -/

def sumBy [AddCommMonoid M] (l : List α) (f : α → M) : M := (l.map f).sum

/-- Claim wording: two faculty "share at least one publication". -/
def sharesPublication (f g : MFaculty) : Bool :=
  f.publications.any fun p => g.publications.contains p

/-- Claim wording (C4): "the number of distinct origin-university faculty
who share at least one publication with some faculty at V" (faculty are
identified by their `name` field, the identity the pipeline uses). -/
def collabWeightSpec (db : MongoDB) (u V : String) : ℕ :=
  (dedupF (((db.faculty.filter fun f => f.affiliation == u).filter fun f =>
    db.faculty.any fun g => g.affiliation == V && sharesPublication f g).map
      fun f => f.name)).length

/-- Claim wording (C5): the sum of `keyword.score * publication.citation_count`
over one faculty document's publications matching the keyword. -/
def krcDocTermMongo (db : MongoDB) (kw : String) (f : MFaculty) : ℚ :=
  sumBy (db.publications.filter fun p => f.publications.contains p.id) fun p =>
    sumBy (p.keywords.filter fun k => k.name == kw) fun k =>
      k.score * (p.numCitations : ℚ)

/-- KRC attributed to a displayed name by the Mongo pipeline: the claim's
per-member sum, taken over every affiliated faculty document bearing that
name (the `$group` key). -/
def krcByNameSpecMongo (db : MongoDB) (kw aff n : String) : ℚ :=
  sumBy (db.faculty.filter fun f => f.affiliation == aff && f.name == n)
    (krcDocTermMongo db kw)

/-- Claim wording (C5, SQL): the sum of `score * num_citations` over one
faculty row's matching (publication, keyword) join pairs at the given
university. -/
def krcRowTermSql (st : MySQLState) (kw uni : String) (f : FacultyRow) : ℚ :=
  sumBy (st.faculty_publication.filter fun fp => f.id == fp.faculty_id) fun fp =>
    sumBy (st.publication.filter fun p => fp.publication_id == p.id) fun p =>
      sumBy (st.publication_keyword.filter fun pk => p.id == pk.publication_id)
        fun pk =>
          sumBy (st.keyword.filter fun k =>
            pk.keyword_id == k.id && k.name == kw) fun _k =>
            sumBy (st.university.filter fun u =>
              f.university_id == u.id && u.name == uni) fun _u =>
              pk.score * (p.num_citations : ℚ)

/-- KRC attributed to a faculty id by the SQL query (the `GROUP BY` key),
summed over every faculty row bearing that id. -/
def krcByIdSpecSql (st : MySQLState) (kw uni : String) (i : ℤ) : ℚ :=
  sumBy (st.faculty.filter fun f => f.id == i) (krcRowTermSql st kw uni)

/-- Claim wording (C6, document side): how many (publication,
keyword-entry) pairs with `year ≥ y` carry this keyword name. -/
def mongoNamePairCount (db : MongoDB) (y : ℤ) (n : String) : ℕ :=
  sumBy (db.publications.filter fun p => decide (y ≤ p.year)) fun p =>
    (p.keywords.filter fun k => k.name == n).length

/-- Claim wording (C6, SQL side): joined row count for one keyword id —
each keyword row with the id joins each of the id's publication links. -/
def sqlJoinCount (st : MySQLState) (y : ℤ) (kid : String) : ℕ :=
  (st.keyword.filter fun k => k.id == kid).length *
    sumBy (st.publication_keyword.filter fun pk => kid == pk.keyword_id)
      fun pk =>
        (st.publication.filter fun p =>
          pk.publication_id == p.id && decide (y ≤ p.year)).length

/-- Modelled from the spec: the original claim's reading of keyword
popularity — "group publications with year >= Y by keyword name, count
them", i.e. the number of distinct publications (not unwound pairs)
carrying the name.  Used to exhibit where the code diverges from the
claim. -/
def popularPublicationCountByName (db : MongoDB) (y : ℤ) (n : String) : ℕ :=
  (db.publications.filter fun p =>
    decide (y ≤ p.year) && p.keywords.any fun k => k.name == n).length

/-- Flag rewrite used to show a query ignores `is_deleted` entirely: set
every faculty and keyword flag to the same value. -/
def setAllFlags (st : MySQLState) (b : Option Bool) : MySQLState :=
  { st with
    faculty := st.faculty.map fun f => { f with is_deleted := b }
    keyword := st.keyword.map fun k => { k with is_deleted := b } }

/-! ### Toolbox lemmas about sums, grouping and sorted truncation -/

theorem sumBy_nil [AddCommMonoid M] (f : α → M) : sumBy ([] : List α) f = 0 := by
  simp [sumBy]

theorem sumBy_cons [AddCommMonoid M] (a : α) (l : List α) (f : α → M) :
    sumBy (a :: l) f = f a + sumBy l f := by
  simp [sumBy]

theorem sumBy_append [AddCommMonoid M] (l₁ l₂ : List α) (f : α → M) :
    sumBy (l₁ ++ l₂) f = sumBy l₁ f + sumBy l₂ f := by
  simp [sumBy]

theorem sumBy_flatMap [AddCommMonoid M] (l : List α) (g : α → List β)
    (f : β → M) : sumBy (l.flatMap g) f = sumBy l fun a => sumBy (g a) f := by
  induction l with
  | nil => simp [sumBy]
  | cons a l ih => simp [List.flatMap_cons, sumBy_append, sumBy_cons, ih]

theorem sumBy_map [AddCommMonoid M] (l : List α) (g : α → β) (f : β → M) :
    sumBy (l.map g) f = sumBy l fun a => f (g a) := by
  simp [sumBy, List.map_map]
  rfl

theorem sumBy_zero [AddCommMonoid M] (l : List α) :
    sumBy l (fun _ => (0 : M)) = 0 := by
  induction l with
  | nil => simp [sumBy]
  | cons a l ih => simp [sumBy_cons, ih]

theorem sumBy_guard [AddCommMonoid M] (l : List α) (p : α → Bool) (f : α → M) :
    sumBy l (fun a => if p a then f a else 0) = sumBy (l.filter p) f := by
  induction l with
  | nil => simp [sumBy]
  | cons a l ih =>
    by_cases h : p a
    · simp [sumBy_cons, List.filter_cons, h, ih]
    · simp [sumBy_cons, List.filter_cons, h, ih]

theorem sumBy_congr [AddCommMonoid M] {l : List α} {f g : α → M}
    (h : ∀ a ∈ l, f a = g a) : sumBy l f = sumBy l g := by
  unfold sumBy
  rw [List.map_congr_left h]

theorem sumBy_const_nat (l : List α) (c : ℕ) :
    sumBy l (fun _ => c) = l.length * c := by
  induction l with
  | nil => simp [sumBy]
  | cons a l ih => simp [sumBy_cons, ih]; ring

theorem length_filter_eq_sumBy (l : List α) (p : α → Bool) :
    (l.filter p).length = sumBy l fun a => if p a then 1 else 0 := by
  induction l with
  | nil => simp [sumBy]
  | cons a l ih =>
    by_cases h : p a
    · simp [List.filter_cons, h, sumBy_cons, ih]
      omega
    · simp [List.filter_cons, h, sumBy_cons, ih]

theorem filter_const (l : List α) (c : Bool) :
    l.filter (fun _ => c) = if c then l else [] := by
  cases c
  · simp
  · simp

theorem length_filter_flatMap (l : List α) (g : α → List β) (pr : β → Bool) :
    ((l.flatMap g).filter pr).length =
      sumBy l fun a => ((g a).filter pr).length := by
  rw [List.filter_flatMap, List.length_flatMap]
  rfl

theorem sumBy_filter_flatMap [AddCommMonoid M] (l : List α) (g : α → List β)
    (pr : β → Bool) (v : β → M) :
    sumBy ((l.flatMap g).filter pr) v =
      sumBy l fun a => sumBy ((g a).filter pr) v := by
  rw [List.filter_flatMap, sumBy_flatMap]

theorem sumBy_case [AddCommMonoid M] (l : List α) (c : α → Bool) (f g : α → M)
    (h0 : ∀ a ∈ l, c a = false → f a = 0)
    (h1 : ∀ a ∈ l, c a = true → f a = g a) :
    sumBy l f = sumBy (l.filter c) g := by
  rw [← sumBy_guard]
  apply sumBy_congr
  intro a ha
  by_cases hc : c a
  · simp [hc, h1 a ha hc]
  · simp only [Bool.not_eq_true] at hc
    simp [hc, h0 a ha hc]

/-- Entries of a grouped list `(dedupF keys).map (k ↦ (display k, agg k))`
come from a key occurring in `keys`. -/
theorem mem_grouped [DecidableEq κ] {keys : List κ} {display : κ → δ}
    {agg : κ → M} {e : δ × M}
    (h : e ∈ (dedupF keys).map fun k => (display k, agg k)) :
    ∃ k, k ∈ keys ∧ e = (display k, agg k) := by
  rcases List.mem_map.1 h with ⟨k, hk, he⟩
  exact ⟨k, mem_dedupF.1 hk, he.symm⟩

theorem take_sortPairsDesc_sorted_snd [LinearOrder β] (l : List (α × β))
    (k : ℕ) : (((sortPairsDesc l).take k).map Prod.snd).Sorted (· ≥ ·) :=
  List.Pairwise.map _ (fun {p q} h => h)
    (List.Pairwise.sublist (List.take_sublist k _) (sortPairsDesc_pairwise l))

theorem round2_mono {a b : ℚ} (h : a ≤ b) : round2 a ≤ round2 b := by
  unfold round2
  have hr : round (a * 100) ≤ round (b * 100) := by
    rw [round_eq, round_eq]
    exact Int.floor_le_floor (by linarith)
  have : ((round (a * 100) : ℤ) : ℚ) ≤ ((round (b * 100) : ℤ) : ℚ) := by
    exact_mod_cast hr
  linarith

/-! ### Claim C1 — soft delete of a non-existent id -/

/-- Claim wording: the given id "matches no row in the table", under both
legs of the dual-typed lookup `delete_keyword_mysql` performs. -/
def kwIdMatchesNoRow (st : MySQLState) (kid : String) : Prop :=
  (∀ n, pyInt? kid = some n → ∀ k ∈ st.keyword, kwMatchesInt n k = false) ∧
  (∀ k ∈ st.keyword, kwMatchesStr kid k = false)

theorem kwChangedCount_zero {st : MySQLState} {p : KeywordRow → Bool}
    (h : ∀ k ∈ st.keyword, p k = false) : kwChangedCount st p = 0 := by
  unfold kwChangedCount
  rw [List.length_eq_zero]
  rw [List.filter_eq_nil]
  intro k hk
  simp [h k hk]

/-- C1 (amended): with the `is_deleted` column present and an id matching
no keyword row under either the numeric or the string comparison,
`delete_keyword_mysql` affects zero rows, rolls back and returns `False`
with the state unchanged; `delete_faculty`, by contrast, never consults the
affected-row count: on a non-matching id it commits the no-op `UPDATE` and
returns `True` (with every row unchanged). -/
theorem C1_soft_delete_missing_id :
    (∀ (a : Bool) (st : MySQLState) (kid : String),
      st.keyword_has_col = true → kwIdMatchesNoRow st kid →
      delete_keyword_mysql a st kid = (false, st)) ∧
    (∀ (st : MySQLState) (fid : ℤ),
      st.faculty_has_col = true →
      (∀ f ∈ st.faculty, (f.id == fid) = false) →
      delete_faculty st fid = (true, st)) := by
  constructor
  · intro a st kid hcol ⟨hint, hstr⟩
    have hens : (keyword_ensure_is_deleted_column a st).1 = st := by
      simp [keyword_ensure_is_deleted_column, hcol]
    by_cases hblank : pyStrip kid = ""
    · simp [delete_keyword_mysql, hblank, hens]
    · rcases hn : pyInt? kid with _ | n
      · have hc := kwChangedCount_zero (fun k hk => hstr k hk)
        simp [delete_keyword_mysql, hblank, hens, hcol, hn, hc]
      · have hci := kwChangedCount_zero (fun k hk => hint n hn k hk)
        have hcs := kwChangedCount_zero (fun k hk => hstr k hk)
        simp [delete_keyword_mysql, hblank, hens, hcol, hn, hci, hcs]
  · intro st fid hcol hmiss
    have hmap :
        (st.faculty.map fun f =>
          if f.id == fid then { f with is_deleted := some true } else f) =
          st.faculty := by
      have := List.map_congr_left (l := st.faculty)
        (f := fun f : FacultyRow =>
          if f.id == fid then { f with is_deleted := some true } else f)
        (g := fun f => f) (fun f hf => by simp [hmiss f hf])
      simpa using this
    unfold delete_faculty
    rw [if_neg (by simp [hcol]), hmap]

/-- Witness for C1: a state holding only keyword id `"7"` and faculty
id `1`; deleting keyword id `"9"` reports failure and changes nothing,
deleting faculty id `2` reports success and changes nothing. -/
theorem C1_soft_delete_missing_id_witness :
    delete_keyword_mysql true
      { university := [], faculty := [⟨1, "bob", 1, some false⟩],
        keyword := [⟨"7", "ml", some false⟩], faculty_keyword := [],
        publication := [], publication_keyword := [],
        faculty_publication := [], faculty_has_col := true,
        keyword_has_col := true } "9" =
      (false,
        { university := [], faculty := [⟨1, "bob", 1, some false⟩],
          keyword := [⟨"7", "ml", some false⟩], faculty_keyword := [],
          publication := [], publication_keyword := [],
          faculty_publication := [], faculty_has_col := true,
          keyword_has_col := true }) ∧
    delete_faculty
      { university := [], faculty := [⟨1, "bob", 1, some false⟩],
        keyword := [⟨"7", "ml", some false⟩], faculty_keyword := [],
        publication := [], publication_keyword := [],
        faculty_publication := [], faculty_has_col := true,
        keyword_has_col := true } 2 =
      (true,
        { university := [], faculty := [⟨1, "bob", 1, some false⟩],
          keyword := [⟨"7", "ml", some false⟩], faculty_keyword := [],
          publication := [], publication_keyword := [],
          faculty_publication := [], faculty_has_col := true,
          keyword_has_col := true }) :=
  ⟨C1_soft_delete_missing_id.1 true _ "9" (by decide)
      ⟨fun n hn => by
          have hn9 : n = 9 := by
            have : pyInt? "9" = some 9 := by decide
            rw [this] at hn
            exact (Option.some.injEq _ _ ▸ hn).symm
          subst hn9
          decide,
        by decide⟩,
    C1_soft_delete_missing_id.2 _ 2 (by decide) (by decide)⟩

/-- Counterexample to C1 as stated: `delete_faculty` on an id matching no
row (the state holds only faculty id `1`) returns `True` and commits,
where the claim requires rollback and `False`. -/
theorem C1_counterexample :
    ([⟨1, "bob", 1, some false⟩] : List FacultyRow).all
        (fun f => !(f.id == 2)) = true ∧
    (delete_faculty
      { university := [], faculty := [⟨1, "bob", 1, some false⟩],
        keyword := [], faculty_keyword := [], publication := [],
        publication_keyword := [], faculty_publication := [],
        faculty_has_col := true, keyword_has_col := true } 2).1 = true := by
  decide

/-! ### Claim C3 — bulk restore -/

/-- C3 (amended): both restore calls clear the flag on every currently
flagged row and report success even when zero rows were flagged, and
`restore_keyword_mysql` short-circuits as a trivially-successful no-op
(beyond provisioning the column) when the `is_deleted` column does not yet
exist; `restore_faculty`, however, has no such short-circuit: with the
column missing its `UPDATE` raises and it reports failure with the state
unchanged. -/
theorem facultyClear_mem {l : List FacultyRow} {f : FacultyRow}
    (hf : f ∈ l.map fun f0 =>
      if f0.is_deleted == some true then { f0 with is_deleted := some false }
      else f0) :
    f.is_deleted ≠ some true := by
  rcases List.mem_map.1 hf with ⟨f0, _, rfl⟩
  by_cases h0 : f0.is_deleted = some true
  · simp [h0]
  · simp [h0]

theorem keywordClear_mem {l : List KeywordRow} {k : KeywordRow}
    (hk : k ∈ l.map fun k0 =>
      if k0.is_deleted == some true then { k0 with is_deleted := some false }
      else k0) :
    k.is_deleted ≠ some true := by
  rcases List.mem_map.1 hk with ⟨k0, _, rfl⟩
  by_cases h0 : k0.is_deleted = some true
  · simp [h0]
  · simp [h0]

theorem C3_restore_clears_all_flags :
    (∀ st : MySQLState, st.faculty_has_col = true →
      (restore_faculty st).1 = true ∧
      (∀ f ∈ (restore_faculty st).2.faculty, f.is_deleted ≠ some true) ∧
      (restore_faculty st).2 =
        { st with
          faculty := st.faculty.map fun f =>
            if f.is_deleted == some true then
              { f with is_deleted := some false }
            else f }) ∧
    (∀ st : MySQLState, st.faculty_has_col = false →
      restore_faculty st = (false, st)) ∧
    (∀ (a : Bool) (st : MySQLState), (restore_keyword_mysql a st).1 = true) ∧
    (∀ (a : Bool) (st : MySQLState), st.keyword_has_col = true →
      (∀ k ∈ (restore_keyword_mysql a st).2.keyword,
        k.is_deleted ≠ some true) ∧
      (restore_keyword_mysql a st).2 =
        { st with
          keyword := st.keyword.map fun k =>
            if k.is_deleted == some true then
              { k with is_deleted := some false }
            else k }) ∧
    (∀ (a : Bool) (st : MySQLState), st.keyword_has_col = false →
      (restore_keyword_mysql a st).2 =
        (keyword_ensure_is_deleted_column a st).1) := by
  refine ⟨?_, ?_, ?_, ?_, ?_⟩
  · intro st hcol
    have h2 : (restore_faculty st).2 =
        { st with
          faculty := st.faculty.map fun f =>
            if f.is_deleted == some true then
              { f with is_deleted := some false }
            else f } := by
      simp [restore_faculty, hcol]
    refine ⟨by simp [restore_faculty, hcol], ?_, h2⟩
    intro f hf
    rw [h2] at hf
    exact facultyClear_mem hf
  · intro st hcol
    simp [restore_faculty, hcol]
  · intro a st
    by_cases hcol : st.keyword_has_col
    · simp [restore_keyword_mysql, hcol]
    · simp [restore_keyword_mysql, hcol]
  · intro a st hcol
    have h2 : (restore_keyword_mysql a st).2 =
        { st with
          keyword := st.keyword.map fun k =>
            if k.is_deleted == some true then
              { k with is_deleted := some false }
            else k } := by
      simp [restore_keyword_mysql, hcol]
    refine ⟨?_, h2⟩
    intro k hk
    rw [h2] at hk
    exact keywordClear_mem hk
  · intro a st hcol
    simp [restore_keyword_mysql, hcol]

/-- Witness for C3 at concrete states: with the column present, restore
clears the single flagged faculty row and the single flagged keyword row
(and succeeds); restoring keywords with a missing column still succeeds. -/
theorem C3_restore_clears_all_flags_witness :
    (restore_faculty
      { university := [], faculty := [⟨1, "bob", 1, some true⟩],
        keyword := [], faculty_keyword := [], publication := [],
        publication_keyword := [], faculty_publication := [],
        faculty_has_col := true, keyword_has_col := true }).1 = true ∧
    (∀ f ∈ (restore_faculty
      { university := [], faculty := [⟨1, "bob", 1, some true⟩],
        keyword := [], faculty_keyword := [], publication := [],
        publication_keyword := [], faculty_publication := [],
        faculty_has_col := true, keyword_has_col := true }).2.faculty,
      f.is_deleted ≠ some true) ∧
    (∀ k ∈ (restore_keyword_mysql false
      { university := [], faculty := [],
        keyword := [⟨"7", "ml", some true⟩], faculty_keyword := [],
        publication := [], publication_keyword := [],
        faculty_publication := [], faculty_has_col := true,
        keyword_has_col := true }).2.keyword, k.is_deleted ≠ some true) ∧
    (restore_keyword_mysql true
      { university := [], faculty := [], keyword := [],
        faculty_keyword := [], publication := [], publication_keyword := [],
        faculty_publication := [], faculty_has_col := false,
        keyword_has_col := false }).1 = true :=
  ⟨(C3_restore_clears_all_flags.1 _ (by decide)).1,
    (C3_restore_clears_all_flags.1 _ (by decide)).2.1,
    ((C3_restore_clears_all_flags.2.2.2.1 false _ (by decide)).1),
    C3_restore_clears_all_flags.2.2.1 true _⟩

/-- Counterexample to C3 as stated: with the `is_deleted` column missing,
`restore_faculty` returns `False` (its `UPDATE` raises), while the claim
requires every restore call to return `True` in that case. -/
theorem C3_counterexample :
    restore_faculty
      { university := [], faculty := [⟨1, "bob", 1, none⟩], keyword := [],
        faculty_keyword := [], publication := [], publication_keyword := [],
        faculty_publication := [], faculty_has_col := false,
        keyword_has_col := false } =
    (false,
      { university := [], faculty := [⟨1, "bob", 1, none⟩], keyword := [],
        faculty_keyword := [], publication := [], publication_keyword := [],
        faculty_publication := [], faculty_has_col := false,
        keyword_has_col := false }) := by
  decide

/-! ### Claim C4 — university collaboration weights -/

/-- Whether the loop over `gs` creates (or touches) the dict slot `V`. -/
def hasKeyAt (gs : List MFaculty) (V : String) : Bool :=
  gs.any fun g => g.affiliation == V && !(g.affiliation == "")

/-- Everything the faculty of `gs` contribute to the dict slot `V`. -/
def contribAt (db : MongoDB) (u : String) : List MFaculty → String → Finset String
  | [], _ => ∅
  | g :: gs, V =>
    (if g.affiliation == V && !(g.affiliation == "") then contribOfFac db u g
     else ∅) ∪ contribAt db u gs V

theorem mapLookup_mapInsert_self (m : List (String × Finset String))
    (k : String) (v : Finset String) :
    mapLookup (mapInsert m k v) k = some ((mapLookup m k).getD ∅ ∪ v) := by
  induction m with
  | nil => simp [mapInsert, mapLookup]
  | cons e m ih =>
    rcases e with ⟨k', v'⟩
    by_cases h : k' = k
    · subst h
      simp [mapInsert, mapLookup]
    · simp [mapInsert, mapLookup, h, ih]

theorem mapLookup_mapInsert_ne (m : List (String × Finset String))
    (k k' : String) (v : Finset String) (h : k' ≠ k) :
    mapLookup (mapInsert m k v) k' = mapLookup m k' := by
  induction m with
  | nil => simp [mapInsert, mapLookup, Ne.symm h]
  | cons e m ih =>
    rcases e with ⟨k'', v''⟩
    by_cases h2 : k'' = k
    · subst h2
      simp [mapInsert, mapLookup, Ne.symm h]
    · by_cases h3 : k'' = k'
      · subst h3
        simp [mapInsert, mapLookup, h2]
      · simp [mapInsert, mapLookup, h2, h3, ih]

theorem mapInsert_keys (m : List (String × Finset String)) (k : String)
    (v : Finset String) :
    (mapInsert m k v).map Prod.fst =
      if k ∈ m.map Prod.fst then m.map Prod.fst
      else m.map Prod.fst ++ [k] := by
  induction m with
  | nil => simp [mapInsert]
  | cons e m ih =>
    rcases e with ⟨k', v'⟩
    by_cases h : k' = k
    · subst h
      simp [mapInsert]
    · by_cases h2 : k ∈ m.map Prod.fst
      · simp [mapInsert, h, ih, h2, Ne.symm h]
      · simp [mapInsert, h, ih, h2, Ne.symm h]

theorem mapInsert_keys_nodup {m : List (String × Finset String)} {k : String}
    {v : Finset String} (h : (m.map Prod.fst).Nodup) :
    ((mapInsert m k v).map Prod.fst).Nodup := by
  rw [mapInsert_keys]
  by_cases hk : k ∈ m.map Prod.fst
  · rw [if_pos hk]
    exact h
  · rw [if_neg hk]
    refine List.Nodup.append h (List.nodup_singleton k) ?_
    intro a ha hb
    rcases List.mem_singleton.1 hb with rfl
    exact hk ha

theorem mapLookup_of_mem {m : List (String × Finset String)} {k : String}
    {v : Finset String} (hnd : (m.map Prod.fst).Nodup) (hm : (k, v) ∈ m) :
    mapLookup m k = some v := by
  induction m with
  | nil => exact absurd hm (List.not_mem_nil _)
  | cons e m ih =>
    rcases e with ⟨k', v'⟩
    rcases List.mem_cons.1 hm with he | hm'
    · obtain ⟨h1, h2⟩ := Prod.ext_iff.1 he
      simp only at h1 h2
      subst h1
      subst h2
      simp [mapLookup]
    · have hk : k' ≠ k := by
        intro he
        apply (List.nodup_cons.1 hnd).1
        have hmem := List.mem_map_of_mem Prod.fst hm'
        simpa [he] using hmem
      simp only [mapLookup, if_neg hk]
      exact ih (List.nodup_cons.1 hnd).2 hm'

theorem collabFold_lookup (db : MongoDB) (u V : String) :
    ∀ (gs : List MFaculty) (m : List (String × Finset String)),
    mapLookup (gs.foldl (collabStep db u) m) V =
      if (mapLookup m V).isSome || hasKeyAt gs V then
        some ((mapLookup m V).getD ∅ ∪ contribAt db u gs V)
      else none := by
  intro gs
  induction gs with
  | nil =>
    intro m
    rcases hm : mapLookup m V with _ | s
    · simp [hasKeyAt, hm]
    · simp [hasKeyAt, hm, contribAt]
  | cons g gs ih =>
    intro m
    rw [List.foldl_cons]
    rw [ih (collabStep db u m g)]
    by_cases haff : g.affiliation == ""
    · have hstep : collabStep db u m g = m := by
        simp [collabStep, haff]
      have htrig : (g.affiliation == V && !(g.affiliation == "")) = false := by
        simp [haff]
      simp [hstep, hasKeyAt, contribAt, htrig, List.any_cons]
    · have hstep : collabStep db u m g =
          mapInsert m g.affiliation (contribOfFac db u g) := by
        simp [collabStep, haff]
      by_cases hV : g.affiliation == V
      · have hVe : g.affiliation = V := by simpa using hV
        have htrig : (g.affiliation == V && !(g.affiliation == "")) = true := by
          simp [hV, haff]
        rw [hstep, hVe, mapLookup_mapInsert_self]
        simp only [Option.isSome_some, Bool.true_or, if_pos, Option.getD_some]
        rw [show hasKeyAt (g :: gs) V = true by
          simp [hasKeyAt, List.any_cons, htrig]]
        simp only [Bool.or_true, if_pos]
        rw [show contribAt db u (g :: gs) V =
          contribOfFac db u g ∪ contribAt db u gs V by
          simp [contribAt, htrig]]
        rw [Finset.union_assoc]
      · have hVne : V ≠ g.affiliation := by
          intro he
          exact absurd (by simp [he]) hV
        have htrig : (g.affiliation == V && !(g.affiliation == "")) = false := by
          simp [hV]
        rw [hstep, mapLookup_mapInsert_ne _ _ _ _ hVne]
        simp [hasKeyAt, contribAt, htrig, List.any_cons]

theorem collabFold_keys_nodup (db : MongoDB) (u : String) :
    ∀ (gs : List MFaculty) (m : List (String × Finset String)),
    (m.map Prod.fst).Nodup →
    ((gs.foldl (collabStep db u) m).map Prod.fst).Nodup := by
  intro gs
  induction gs with
  | nil => intro m h; exact h
  | cons g gs ih =>
    intro m h
    rw [List.foldl_cons]
    apply ih
    by_cases haff : (g.affiliation == "") = true
    · have hstep : collabStep db u m g = m := by simp [collabStep, haff]
      rw [hstep]
      exact h
    · have hstep : collabStep db u m g =
          mapInsert m g.affiliation (contribOfFac db u g) := by
        simp [collabStep, haff]
      rw [hstep]
      exact mapInsert_keys_nodup h

theorem mem_foldr_union {F : ℤ → Finset String} {n : String} :
    ∀ {l : List ℤ}, (n ∈ (l.map F).foldr (· ∪ ·) ∅ ↔ ∃ p ∈ l, n ∈ F p)
  | [] => by simp
  | p :: l => by
    simp only [List.map_cons, List.foldr_cons, Finset.mem_union,
      List.mem_cons]
    rw [mem_foldr_union (l := l)]
    constructor
    · rintro (h | ⟨q, hq, hn⟩)
      · exact ⟨p, Or.inl rfl, h⟩
      · exact ⟨q, Or.inr hq, hn⟩
    · rintro ⟨q, hq | hq, hn⟩
      · subst hq
        exact Or.inl hn
      · exact Or.inr ⟨q, hq, hn⟩

theorem mem_contribOfFac {db : MongoDB} {u : String} {g : MFaculty}
    {n : String} :
    n ∈ contribOfFac db u g ↔
      ∃ p ∈ sharedPubs db u g, n ∈ facultyPubMap db u p :=
  mem_foldr_union

theorem mem_facultyPubMap {db : MongoDB} {u : String} {p : ℤ} {n : String} :
    n ∈ facultyPubMap db u p ↔
      ∃ f ∈ originFaculty db u,
        f.publications.contains p = true ∧ f.name = n := by
  unfold facultyPubMap
  rw [List.mem_toFinset]
  constructor
  · intro h
    rcases List.mem_map.1 h with ⟨f, hf, rfl⟩
    have := List.mem_filter.1 hf
    exact ⟨f, this.1, this.2, rfl⟩
  · rintro ⟨f, hf, hc, rfl⟩
    exact List.mem_map_of_mem _ (List.mem_filter.2 ⟨hf, hc⟩)

theorem mem_contribAt {db : MongoDB} {u : String} :
    ∀ {gs : List MFaculty} {V n : String},
    (n ∈ contribAt db u gs V ↔
      ∃ g ∈ gs, (g.affiliation == V && !(g.affiliation == "")) = true ∧
        n ∈ contribOfFac db u g)
  | [], V, n => by simp [contribAt]
  | g :: gs, V, n => by
    simp only [contribAt, Finset.mem_union, List.mem_cons]
    rw [@mem_contribAt db u gs V n]
    by_cases htrig : (g.affiliation == V && !(g.affiliation == "")) = true
    · rw [if_pos htrig]
      constructor
      · rintro (h | ⟨g', hg', ht', hn'⟩)
        · exact ⟨g, Or.inl rfl, htrig, h⟩
        · exact ⟨g', Or.inr hg', ht', hn'⟩
      · rintro ⟨g', hg' | hg', ht', hn'⟩
        · subst hg'
          exact Or.inl hn'
        · exact Or.inr ⟨g', hg', ht', hn'⟩
    · rw [if_neg htrig]
      simp only [Finset.not_mem_empty, false_or]
      constructor
      · rintro ⟨g', hg', ht', hn'⟩
        exact ⟨g', Or.inr hg', ht', hn'⟩
      · rintro ⟨g', hg' | hg', ht', hn'⟩
        · subst hg'
          exact absurd ht' htrig
        · exact ⟨g', hg', ht', hn'⟩

/-- The claim's set of collaborating origin faculty names for `V`. -/
def collabNameSet (db : MongoDB) (u V : String) : Finset String :=
  (((db.faculty.filter fun f => f.affiliation == u).filter fun f =>
    db.faculty.any fun g => g.affiliation == V && sharesPublication f g).map
      fun f => f.name).toFinset

theorem dedupF_length_eq_card [DecidableEq α] (l : List α) :
    (dedupF l).length = l.toFinset.card := by
  rw [← List.toFinset_card_of_nodup (nodup_dedupF l)]
  congr 1
  apply Finset.ext
  intro a
  simp [List.mem_toFinset, mem_dedupF]

theorem collabWeightSpec_eq_card (db : MongoDB) (u V : String) :
    collabWeightSpec db u V = (collabNameSet db u V).card := by
  unfold collabWeightSpec collabNameSet
  exact dedupF_length_eq_card _

theorem mapLookup_mem :
    ∀ {m : List (String × Finset String)} {k : String} {v : Finset String},
    mapLookup m k = some v → (k, v) ∈ m
  | [], k, v => by simp [mapLookup]
  | (k', v') :: m, k, v => by
    by_cases h : k' = k
    · subst h
      intro hm
      rw [mapLookup, if_pos rfl] at hm
      injection hm with h2
      subst h2
      exact List.mem_cons_self _ _
    · simp only [mapLookup, if_neg h]
      intro hm
      exact List.mem_cons_of_mem _ (mapLookup_mem hm)

theorem originPubMember_iff {db : MongoDB} {u : String} {p : ℤ} :
    originPubMember db u p = true ↔
      ∃ f ∈ originFaculty db u, p ∈ f.publications := by
  simp [originPubMember, originPubIds, List.mem_flatMap]

theorem sharesPublication_iff {f g : MFaculty} :
    sharesPublication f g = true ↔
      ∃ p ∈ f.publications, p ∈ g.publications := by
  simp [sharesPublication, List.any_eq_true]

theorem contribAt_collab_eq (db : MongoDB) (u V : String) (hVu : V ≠ u)
    (hV0 : V ≠ "") :
    contribAt db u (collabFaculty db u) V = collabNameSet db u V := by
  apply Finset.ext
  intro n
  rw [mem_contribAt]
  unfold collabNameSet
  rw [List.mem_toFinset]
  constructor
  · rintro ⟨g, hg, htrig, hn⟩
    rcases mem_contribOfFac.1 hn with ⟨p, hp, hn2⟩
    rcases mem_facultyPubMap.1 hn2 with ⟨f, hf, hfp, rfl⟩
    have htrig' := htrig
    simp only [Bool.and_eq_true] at htrig'
    have hgV : g.affiliation = V := by simpa using htrig'.1
    have hg' := List.mem_filter.1 hg
    have hforig := List.mem_filter.1 hf
    unfold sharedPubs at hp
    have hpg : p ∈ g.publications := (List.mem_filter.1 hp).1
    apply List.mem_map_of_mem
    apply List.mem_filter.2
    refine ⟨List.mem_filter.2 ⟨hforig.1, hforig.2⟩, ?_⟩
    rw [List.any_eq_true]
    refine ⟨g, hg'.1, ?_⟩
    rw [Bool.and_eq_true]
    refine ⟨by simp [hgV], ?_⟩
    rw [sharesPublication_iff]
    exact ⟨p, by simpa using hfp, hpg⟩
  · intro hmem
    rcases List.mem_map.1 hmem with ⟨f, hf, rfl⟩
    have hff := List.mem_filter.1 hf
    have hforig := List.mem_filter.1 hff.1
    rcases List.any_eq_true.1 hff.2 with ⟨g, hgdb, hgb⟩
    simp only [Bool.and_eq_true] at hgb
    obtain ⟨hgV, hshare⟩ := hgb
    rcases sharesPublication_iff.1 hshare with ⟨p, hpf, hpg⟩
    have hgVe : g.affiliation = V := by simpa using hgV
    have hopm : originPubMember db u p = true := by
      rw [originPubMember_iff]
      exact ⟨f, List.mem_filter.2 ⟨hforig.1, hforig.2⟩, hpf⟩
    refine ⟨g, ?_, ?_, ?_⟩
    · apply List.mem_filter.2
      refine ⟨hgdb, ?_⟩
      rw [Bool.and_eq_true]
      refine ⟨by simp [hgVe, hVu], ?_⟩
      rw [List.any_eq_true]
      exact ⟨p, hpg, hopm⟩
    · rw [Bool.and_eq_true]
      exact ⟨by simp [hgVe], by simp [hgVe, hV0]⟩
    · rw [mem_contribOfFac]
      refine ⟨p, ?_, ?_⟩
      · unfold sharedPubs
        exact List.mem_filter.2 ⟨hpg, hopm⟩
      · rw [mem_facultyPubMap]
        exact ⟨f, List.mem_filter.2 ⟨hforig.1, hforig.2⟩, by simpa using hpf,
          rfl⟩

theorem hasKeyAt_collab_iff (db : MongoDB) (u V : String) :
    hasKeyAt (collabFaculty db u) V = true ↔
      V ≠ "" ∧ V ≠ u ∧ 0 < collabWeightSpec db u V := by
  constructor
  · intro h
    rcases List.any_eq_true.1 h with ⟨g, hg, hgb⟩
    simp only [Bool.and_eq_true] at hgb
    obtain ⟨hgV, hne⟩ := hgb
    have hgVe : g.affiliation = V := by simpa using hgV
    have hV0 : V ≠ "" := by
      rw [← hgVe]
      simpa using hne
    have hgcf := List.mem_filter.1 hg
    have hgcf2 := hgcf.2
    simp only [Bool.and_eq_true] at hgcf2
    obtain ⟨hnu, hany⟩ := hgcf2
    have hVu : V ≠ u := by
      rw [← hgVe]
      simpa using hnu
    rcases List.any_eq_true.1 hany with ⟨p, hpg, hopm⟩
    rcases originPubMember_iff.1 hopm with ⟨f, hf, hpf⟩
    have hforig := List.mem_filter.1 hf
    refine ⟨hV0, hVu, ?_⟩
    unfold collabWeightSpec
    apply List.length_pos_of_mem (a := f.name)
    apply mem_dedupF.2
    apply List.mem_map_of_mem
    apply List.mem_filter.2
    refine ⟨List.mem_filter.2 ⟨hforig.1, hforig.2⟩, ?_⟩
    rw [List.any_eq_true]
    refine ⟨g, hgcf.1, ?_⟩
    rw [Bool.and_eq_true]
    refine ⟨hgV, ?_⟩
    rw [sharesPublication_iff]
    exact ⟨p, hpf, hpg⟩
  · rintro ⟨hV0, hVu, hw⟩
    unfold collabWeightSpec at hw
    rcases List.exists_mem_of_length_pos hw with ⟨n, hn⟩
    rcases List.mem_map.1 (mem_dedupF.1 hn) with ⟨f, hf, rfl⟩
    have hff := List.mem_filter.1 hf
    have hforig := List.mem_filter.1 hff.1
    rcases List.any_eq_true.1 hff.2 with ⟨g, hgdb, hgb⟩
    simp only [Bool.and_eq_true] at hgb
    obtain ⟨hgV, hshare⟩ := hgb
    rcases sharesPublication_iff.1 hshare with ⟨p, hpf, hpg⟩
    have hgVe : g.affiliation = V := by simpa using hgV
    rw [hasKeyAt, List.any_eq_true]
    refine ⟨g, ?_, ?_⟩
    · apply List.mem_filter.2
      refine ⟨hgdb, ?_⟩
      rw [Bool.and_eq_true]
      refine ⟨by simp [hgVe, hVu], ?_⟩
      rw [List.any_eq_true]
      refine ⟨p, hpg, ?_⟩
      rw [originPubMember_iff]
      exact ⟨f, List.mem_filter.2 ⟨hforig.1, hforig.2⟩, hpf⟩
    · rw [Bool.and_eq_true]
      exact ⟨by simp [hgVe], by simp [hgVe, hV0]⟩

/-- C4: every university `V` returned by
`university_collaborate_with_mongo db u` is paired with the number of
distinct origin-university faculty (identified by name, the pipeline's
faculty identity) who share at least one publication with some faculty at
`V` — not the number of shared publications; the list is sorted by weight
descending and holds at most 10 entries; and any university with a
positive collaboration weight is either listed or the list is full with
every listed weight at least as large. -/
theorem C4_university_collaboration :
    (∀ (db : MongoDB) (u : String) (e : String × ℕ),
      e ∈ university_collaborate_with_mongo db u →
      e.2 = collabWeightSpec db u e.1) ∧
    (∀ (db : MongoDB) (u : String),
      ((university_collaborate_with_mongo db u).map Prod.snd).Sorted
        (· ≥ ·)) ∧
    (∀ (db : MongoDB) (u : String),
      (university_collaborate_with_mongo db u).length ≤ 10) ∧
    (∀ (db : MongoDB) (u V : String), V ≠ "" → V ≠ u →
      0 < collabWeightSpec db u V →
      V ∈ (university_collaborate_with_mongo db u).map Prod.fst ∨
        ((university_collaborate_with_mongo db u).length = 10 ∧
          ∀ q ∈ university_collaborate_with_mongo db u,
            collabWeightSpec db u V ≤ q.2)) := by
  have hlookup : ∀ (db : MongoDB) (u V : String) {S : Finset String},
      (V, S) ∈ collabMap db u →
      hasKeyAt (collabFaculty db u) V = true ∧
        S = contribAt db u (collabFaculty db u) V := by
    intro db u V S hVS
    have hnd : ((collabMap db u).map Prod.fst).Nodup := by
      unfold collabMap
      exact collabFold_keys_nodup db u (collabFaculty db u) [] (by simp)
    have hlk : mapLookup (collabMap db u) V = some S :=
      mapLookup_of_mem hnd hVS
    rw [show collabMap db u =
      (collabFaculty db u).foldl (collabStep db u) [] from rfl,
      collabFold_lookup db u V (collabFaculty db u) []] at hlk
    by_cases hkey : hasKeyAt (collabFaculty db u) V = true
    · refine ⟨hkey, ?_⟩
      rw [show mapLookup [] V = none from rfl] at hlk
      simp only [Option.isSome_none, Bool.false_or, hkey, if_pos,
        Option.getD_none, Finset.empty_union, Option.some.injEq] at hlk
      exact hlk.symm
    · exfalso
      rw [show mapLookup [] V = none from rfl] at hlk
      simp [hkey] at hlk
  have hentry : ∀ (db : MongoDB) (u : String) (e : String × ℕ),
      e ∈ (collabMap db u).map (fun e => (e.1, e.2.card)) →
      e.2 = collabWeightSpec db u e.1 := by
    intro db u e he
    rcases List.mem_map.1 he with ⟨⟨V, S⟩, hVS, rfl⟩
    obtain ⟨hkey, hS⟩ := hlookup db u V hVS
    obtain ⟨hV0, hVu, _⟩ := (hasKeyAt_collab_iff db u V).1 hkey
    rw [hS, contribAt_collab_eq db u V hVu hV0,
      ← collabWeightSpec_eq_card db u V]
  refine ⟨?_, ?_, ?_, ?_⟩
  · intro db u e he
    unfold university_collaborate_with_mongo at he
    by_cases hids : originPubIds db u = []
    · rw [if_pos hids] at he
      exact absurd he (List.not_mem_nil e)
    · rw [if_neg hids] at he
      exact hentry db u e (mem_of_mem_take_sortPairsDesc he)
  · intro db u
    unfold university_collaborate_with_mongo
    by_cases hids : originPubIds db u = []
    · rw [if_pos hids]
      simp
    · rw [if_neg hids]
      exact take_sortPairsDesc_sorted_snd _ _
  · intro db u
    unfold university_collaborate_with_mongo
    by_cases hids : originPubIds db u = []
    · rw [if_pos hids]
      simp
    · rw [if_neg hids]
      exact List.length_take_le _ _
  · intro db u V hV0 hVu hw
    have hkey : hasKeyAt (collabFaculty db u) V = true :=
      (hasKeyAt_collab_iff db u V).2 ⟨hV0, hVu, hw⟩
    have hids : originPubIds db u ≠ [] := by
      rcases List.any_eq_true.1 hkey with ⟨g, hg, _⟩
      have hgcf := List.mem_filter.1 hg
      have hgcf2 := hgcf.2
      simp only [Bool.and_eq_true] at hgcf2
      rcases List.any_eq_true.1 hgcf2.2 with ⟨p, _, hopm⟩
      have hp : p ∈ originPubIds db u := by
        simpa [originPubMember] using hopm
      exact List.ne_nil_of_mem hp
    have hlk := collabFold_lookup db u V (collabFaculty db u) []
    rw [show mapLookup [] V = none from rfl] at hlk
    simp only [Option.isSome_none, Bool.false_or, hkey, if_pos,
      Option.getD_none, Finset.empty_union] at hlk
    have hmem : (V, contribAt db u (collabFaculty db u) V) ∈
        collabMap db u := by
      unfold collabMap
      exact mapLookup_mem hlk
    have hpentry : (V, (contribAt db u (collabFaculty db u) V).card) ∈
        (collabMap db u).map (fun e => (e.1, e.2.card)) :=
      List.mem_map_of_mem _ hmem
    have hcard : (contribAt db u (collabFaculty db u) V).card =
        collabWeightSpec db u V := by
      rw [contribAt_collab_eq db u V hVu hV0,
        ← collabWeightSpec_eq_card db u V]
    unfold university_collaborate_with_mongo
    rw [if_neg hids]
    by_cases hin : (V, (contribAt db u (collabFaculty db u) V).card) ∈
        (sortPairsDesc ((collabMap db u).map
          (fun e => (e.1, e.2.card)))).take 10
    · left
      exact List.mem_map_of_mem Prod.fst hin
    · right
      obtain ⟨hlen, hdom⟩ := take_sortPairsDesc_topness hpentry hin
      refine ⟨hlen, ?_⟩
      intro q hq
      rw [← hcard]
      exact hdom q hq

/-- The claim's collaboration fixture: two origin faculty at U sharing the
single publication `1` with one faculty at V. -/
def fixC4db : MongoDB :=
  { faculty := [⟨"f1", "U", [1]⟩, ⟨"f2", "U", [1]⟩, ⟨"g", "V", [1]⟩],
    publications := [] }

/-- Witness for C4 at the claim's fixture: the returned weight for V is 2
(distinct origin faculty), not 1 (shared publications). -/
theorem C4_university_collaboration_witness :
    ("V", 2) ∈ university_collaborate_with_mongo fixC4db "U" ∧
    (2 : ℕ) = collabWeightSpec fixC4db "U" "V" ∧
    ("V" ∈ (university_collaborate_with_mongo fixC4db "U").map Prod.fst ∨
      ((university_collaborate_with_mongo fixC4db "U").length = 10 ∧
        ∀ q ∈ university_collaborate_with_mongo fixC4db "U",
          collabWeightSpec fixC4db "U" "V" ≤ q.2)) :=
  ⟨by decide,
    C4_university_collaboration.1 fixC4db "U" ("V", 2) (by decide),
    C4_university_collaboration.2.2.2 fixC4db "U" "V" (by decide) (by decide)
      (by decide)⟩

/-- Two distinct origin faculty documents sharing the same name, each
collaborating with the faculty at V. -/
def cexC4db : MongoDB :=
  { faculty := [⟨"f", "U", [1]⟩, ⟨"f", "U", [2]⟩, ⟨"g", "V", [1, 2]⟩],
    publications := [] }

/-- Counterexample to C4 as stated: two distinct origin-university faculty
documents (same name, different publication lists) each share a publication
with the faculty at V, so the claim's "number of distinct origin-university
faculty" is 2, but the pipeline keys its sets by the `name` field and
reports weight 1. -/
theorem C4_counterexample :
    university_collaborate_with_mongo cexC4db "U" = [("V", 1)] ∧
    ((cexC4db.faculty.filter fun f => f.affiliation == "U").filter fun f =>
      cexC4db.faculty.any fun g =>
        g.affiliation == "V" && sharesPublication f g).length = 2 := by
  decide

/-! ### Claim C5 — top faculty by KRC -/

theorem krc_mongo_agg (db : MongoDB) (kw aff n : String) :
    sumBy ((krc_mongo_rows db kw aff).filter fun r => r.1 == n)
        (fun r => r.2) =
      krcByNameSpecMongo db kw aff n := by
  unfold krc_mongo_rows krcByNameSpecMongo krcDocTermMongo
  rw [sumBy_filter_flatMap]
  rw [show (db.faculty.filter fun f => f.affiliation == aff &&
      f.name == n) =
    ((db.faculty.filter fun f => f.affiliation == aff).filter
      fun f => f.name == n) by
    rw [List.filter_filter]
    apply List.filter_congr
    intro f _
    rw [Bool.and_comm]]
  apply sumBy_case
  · intro f _ hn
    rw [sumBy_filter_flatMap]
    have hall : ∀ p ∈ db.publications.filter
        (fun p => f.publications.contains p.id),
        sumBy ((((p.keywords.filter fun k => k.name == kw).map
          fun k => (f.name, k.score * (p.numCitations : ℚ))).filter
            fun r => r.1 == n)) (fun r => r.2) = 0 := by
      intro p _
      rw [List.filter_map, sumBy_map]
      have hcomp : ((fun r : String × ℚ => r.1 == n) ∘
          fun k : MKeywordEntry =>
            (f.name, k.score * (p.numCitations : ℚ))) = fun _k => false := by
        funext _k
        simpa using hn
      rw [hcomp, List.filter_false]
      exact sumBy_nil _
    rw [sumBy_congr (g := fun _ => (0 : ℚ)) hall, sumBy_zero]
  · intro f _ hn
    rw [sumBy_filter_flatMap]
    apply sumBy_congr
    intro p _
    rw [List.filter_map, sumBy_map]
    have hcomp : ((fun r : String × ℚ => r.1 == n) ∘
        fun k : MKeywordEntry => (f.name, k.score * (p.numCitations : ℚ))) =
        fun _k => true := by
      funext _k
      simpa using hn
    rw [hcomp, List.filter_true]

theorem krc_sql_agg (st : MySQLState) (kw uni : String) (i : ℤ) :
    sumBy ((krc_sql_rows st kw uni).filter fun r => r.1 == i)
        (fun r => r.2.2) = krcByIdSpecSql st kw uni i := by
  unfold krc_sql_rows krcByIdSpecSql krcRowTermSql
  rw [sumBy_filter_flatMap]
  apply sumBy_case
  · intro f _ hf
    simp only [sumBy_filter_flatMap, List.filter_map, sumBy_map,
      Function.comp_def]
    simp [hf, sumBy_nil, sumBy_zero]
  · intro f _ hf
    simp only [sumBy_filter_flatMap, List.filter_map, sumBy_map,
      Function.comp_def]
    simp only [hf, List.filter_true]
    apply sumBy_case
    · intro fp _ h1
      simp [h1, sumBy_nil, sumBy_zero]
    · intro fp _ h1
      simp only [h1, Bool.true_and]
      apply sumBy_case
      · intro p _ h2
        simp [h2, sumBy_nil, sumBy_zero]
      · intro p _ h2
        simp only [h2, Bool.true_and]
        apply sumBy_case
        · intro pk _ h3
          simp [h3, sumBy_nil, sumBy_zero]
        · intro pk _ h3
          simp only [h3, Bool.true_and]
          apply sumBy_case
          · intro k _ h4
            simp [h4, sumBy_nil, sumBy_zero]
          · intro k _ h4
            simp only [h4, Bool.true_and]

theorem krc_sql_rows_mem {st : MySQLState} {kw uni : String}
    {r : ℤ × String × ℚ} (hr : r ∈ krc_sql_rows st kw uni) :
    ∃ f ∈ st.faculty, r.1 = f.id ∧ r.2.1 = f.name := by
  unfold krc_sql_rows at hr
  rcases List.mem_flatMap.1 hr with ⟨f, hf, hr⟩
  rcases List.mem_flatMap.1 hr with ⟨fp, _, hr⟩
  rcases List.mem_flatMap.1 hr with ⟨p, _, hr⟩
  rcases List.mem_flatMap.1 hr with ⟨pk, _, hr⟩
  rcases List.mem_flatMap.1 hr with ⟨k, _, hr⟩
  rcases List.mem_map.1 hr with ⟨u, _, rfl⟩
  exact ⟨f, hf, rfl, rfl⟩

/-- C5 (amended): for both top-KRC queries, every returned entry's KRC is
the rounded sum of `score * citations` over the matching (publication,
keyword) pairs of the faculty the entry aggregates — the SQL variant groups
by `faculty.id` (one entry per id, labelled with that row's name), while
the Mongo pipeline groups by faculty `name`, so its entry for a name sums
over every affiliated faculty document bearing that name; both lists are
sorted by the reported KRC descending and truncated to 10 entries. -/
theorem C5_top_krc :
    (∀ (db : MongoDB) (kw aff : String) (e : String × ℚ),
      e ∈ find_top_faculties_with_highest_KRC_keyword db kw aff →
      e.2 = round2 (krcByNameSpecMongo db kw aff e.1)) ∧
    (∀ (db : MongoDB) (kw aff : String),
      ((find_top_faculties_with_highest_KRC_keyword db kw aff).map
        Prod.snd).Sorted (· ≥ ·)) ∧
    (∀ (db : MongoDB) (kw aff : String),
      (find_top_faculties_with_highest_KRC_keyword db kw aff).length ≤ 10) ∧
    (∀ (st : MySQLState) (kw uni : String) (e : String × ℚ),
      e ∈ find_top_faculties_with_highest_KRC_keyword_sql st kw uni →
      ∃ f ∈ st.faculty, e.1 = f.name ∧
        e.2 = round2 (krcByIdSpecSql st kw uni f.id)) ∧
    (∀ (st : MySQLState) (kw uni : String),
      ((find_top_faculties_with_highest_KRC_keyword_sql st kw uni).map
        Prod.snd).Sorted (· ≥ ·)) ∧
    (∀ (st : MySQLState) (kw uni : String),
      (find_top_faculties_with_highest_KRC_keyword_sql st kw uni).length ≤
        10) := by
  refine ⟨?_, ?_, ?_, ?_, ?_, ?_⟩
  · intro db kw aff e he
    unfold find_top_faculties_with_highest_KRC_keyword at he
    rcases List.mem_map.1 he with ⟨q, hq, rfl⟩
    rcases List.mem_map.1 (mem_of_mem_take_sortPairsDesc hq) with ⟨n, _, rfl⟩
    exact congrArg round2 (krc_mongo_agg db kw aff n)
  · intro db kw aff
    unfold find_top_faculties_with_highest_KRC_keyword
    rw [List.map_map]
    refine List.Pairwise.map _ (fun {p q} h => round2_mono h) ?_
    exact List.Pairwise.sublist (List.take_sublist 10 _)
      (sortPairsDesc_pairwise _)
  · intro db kw aff
    unfold find_top_faculties_with_highest_KRC_keyword
    rw [List.length_map]
    exact List.length_take_le _ _
  · intro st kw uni e he
    unfold find_top_faculties_with_highest_KRC_keyword_sql at he
    rcases List.mem_map.1 (mem_of_mem_take_sortPairsDesc he) with
      ⟨fid, hfid, rfl⟩
    rcases List.mem_map.1 (mem_dedupF.1 hfid) with ⟨r, hr, hr1⟩
    rcases hfind : (krc_sql_rows st kw uni).find? (fun r => r.1 == fid) with
      _ | r'
    · exfalso
      have := List.find?_eq_none.1 hfind r hr
      simp [hr1] at this
    · have hr' := List.mem_of_find?_eq_some hfind
      have hpr : r'.1 = fid := by
        have := List.find?_some hfind
        simpa using this
      rcases krc_sql_rows_mem hr' with ⟨f', hf', hid, hname⟩
      refine ⟨f', hf', ?_, ?_⟩
      · simp [hfind, hname]
      · rw [← hid, hpr]
        exact congrArg round2 (krc_sql_agg st kw uni fid)
  · intro st kw uni
    unfold find_top_faculties_with_highest_KRC_keyword_sql
    exact take_sortPairsDesc_sorted_snd _ _
  · intro st kw uni
    unfold find_top_faculties_with_highest_KRC_keyword_sql
    exact List.length_take_le _ _

/-- One faculty member at affiliation A with one publication (3 citations)
matching keyword k with score 1. -/
def fixC5db : MongoDB :=
  { faculty := [⟨"f", "A", [1]⟩],
    publications := [⟨1, 2020, 3, [⟨"k", 1⟩]⟩] }

/-- The SQL mirror of `fixC5db`. -/
def fixC5st : MySQLState :=
  { university := [⟨1, "U", ""⟩], faculty := [⟨1, "f", 1, some false⟩],
    keyword := [⟨"k1", "k", none⟩], faculty_keyword := [],
    publication := [⟨1, 2020, 3⟩], publication_keyword := [⟨1, "k1", 1⟩],
    faculty_publication := [⟨1, 1⟩], faculty_has_col := true,
    keyword_has_col := true }

/-- Two same-named faculty documents at one affiliation, each with one
matching publication contributing 1. -/
def cexC5db : MongoDB :=
  { faculty := [⟨"X", "A", [1]⟩, ⟨"X", "A", [2]⟩],
    publications := [⟨1, 2020, 1, [⟨"k", 1⟩]⟩, ⟨2, 2020, 1, [⟨"k", 1⟩]⟩] }

theorem round2_one : round2 1 = 1 := by
  unfold round2
  rw [show ((1:ℚ) * 100) = ((100:ℤ):ℚ) by norm_num, round_intCast]
  norm_num

theorem round2_two : round2 2 = 2 := by
  unfold round2
  rw [show ((2:ℚ) * 100) = ((200:ℤ):ℚ) by norm_num, round_intCast]
  norm_num

theorem round2_three : round2 3 = 3 := by
  unfold round2
  rw [show ((3:ℚ) * 100) = ((300:ℤ):ℚ) by norm_num, round_intCast]
  norm_num

theorem fixC5db_krc_eval :
    find_top_faculties_with_highest_KRC_keyword fixC5db "k" "A" =
      [("f", 3)] := by
  simp [find_top_faculties_with_highest_KRC_keyword, krc_mongo_rows, fixC5db,
    dedupF, sortPairsDesc, List.insertionSort, List.orderedInsert]
  norm_num [round2_three]

theorem fixC5st_krc_eval :
    find_top_faculties_with_highest_KRC_keyword_sql fixC5st "k" "U" =
      [("f", 3)] := by
  simp [find_top_faculties_with_highest_KRC_keyword_sql, krc_sql_rows,
    fixC5st, dedupF, sortPairsDesc, List.insertionSort, List.orderedInsert]
  norm_num [round2_three]

/-- Witness for C5: the theorem applied to the fixture entry `("f", 3)` of
each backend (KRC `1 * 3` rounded). -/
theorem C5_top_krc_witness :
    ("f", (3:ℚ)) ∈ find_top_faculties_with_highest_KRC_keyword fixC5db
        "k" "A" ∧
    (3:ℚ) = round2 (krcByNameSpecMongo fixC5db "k" "A" "f") ∧
    (∃ f ∈ fixC5st.faculty, "f" = f.name ∧
      (3:ℚ) = round2 (krcByIdSpecSql fixC5st "k" "U" f.id)) :=
  have hmem : ("f", (3:ℚ)) ∈
      find_top_faculties_with_highest_KRC_keyword fixC5db "k" "A" :=
    fixC5db_krc_eval.symm ▸ List.mem_singleton_self _
  have hmem2 : ("f", (3:ℚ)) ∈
      find_top_faculties_with_highest_KRC_keyword_sql fixC5st "k" "U" :=
    fixC5st_krc_eval.symm ▸ List.mem_singleton_self _
  ⟨hmem, C5_top_krc.1 fixC5db "k" "A" _ hmem,
    C5_top_krc.2.2.2.1 fixC5st "k" "U" _ hmem2⟩

/-- Counterexample to C5 as stated: with two same-named faculty documents
the Mongo pipeline (which groups by `$name`) reports KRC 2 for the name,
while the claim's per-member rounded sum is 1 for each of the two faculty
members it aggregates. -/
theorem C5_counterexample :
    find_top_faculties_with_highest_KRC_keyword cexC5db "k" "A" =
      [("X", 2)] ∧
    round2 (krcDocTermMongo cexC5db "k" ⟨"X", "A", [1]⟩) = 1 ∧
    round2 (krcDocTermMongo cexC5db "k" ⟨"X", "A", [2]⟩) = 1 ∧
    (2 : ℚ) ≠ 1 := by
  refine ⟨?_, ?_, ?_, by norm_num⟩
  · simp [find_top_faculties_with_highest_KRC_keyword, krc_mongo_rows,
      cexC5db, dedupF, sortPairsDesc, List.insertionSort, List.orderedInsert]
    norm_num [round2_two]
  · simp [krcDocTermMongo, cexC5db, sumBy]
    norm_num [round2_one]
  · simp [krcDocTermMongo, cexC5db, sumBy]
    norm_num [round2_one]

/-! ### Claim C6 — keyword popularity since a year -/

theorem fmpk_mongo_count (db : MongoDB) (y : ℤ) (n : String) :
    ((fmpk_mongo_rows db y).filter fun r => r == n).length =
      mongoNamePairCount db y n := by
  unfold fmpk_mongo_rows mongoNamePairCount
  rw [length_filter_flatMap, ← sumBy_guard]
  apply sumBy_congr
  intro p _
  by_cases hy : y ≤ p.year
  · simp [hy, List.filter_map, Function.comp_def]
  · simp [hy]

theorem fmpk_sql_count_aux (pks : List PublicationKeywordRow)
    (ps : List PublicationRow) (y : ℤ) (c : String) :
    (sumBy pks fun pk =>
      (ps.filter fun p =>
        c == pk.keyword_id && pk.publication_id == p.id &&
          decide (y ≤ p.year)).length) =
      sumBy (pks.filter fun pk => c == pk.keyword_id) fun pk =>
        (ps.filter fun p =>
          pk.publication_id == p.id && decide (y ≤ p.year)).length := by
  apply sumBy_case
  · intro pk _ hc
    simp [hc]
  · intro pk _ hc
    simp [hc, Bool.and_assoc]

theorem fmpk_sql_count (st : MySQLState) (y : ℤ) (kid : String) :
    ((fmpk_sql_rows st y).filter fun r => r.1 == kid).length =
      sqlJoinCount st y kid := by
  unfold fmpk_sql_rows sqlJoinCount
  rw [length_filter_flatMap]
  have hinner : ∀ k : KeywordRow,
      (sumBy st.publication_keyword fun pk =>
        (((st.publication.filter fun p =>
            k.id == pk.keyword_id && pk.publication_id == p.id &&
              decide (y ≤ p.year)).map
          fun _p => ((k.id, k.name) : String × String)).filter
            fun r => r.1 == kid).length) =
      if k.id == kid then
        sumBy (st.publication_keyword.filter fun pk => kid == pk.keyword_id)
          fun pk =>
            (st.publication.filter fun p =>
              pk.publication_id == p.id && decide (y ≤ p.year)).length
      else 0 := by
    intro k
    by_cases hk : k.id == kid
    · rw [if_pos hk]
      have hkid : k.id = kid := by simpa using hk
      subst hkid
      rw [← fmpk_sql_count_aux]
      apply sumBy_congr
      intro pk _
      rw [List.filter_map, List.length_map]
      have : ((fun r : String × String => r.1 == k.id) ∘
          fun _p : PublicationRow => (k.id, k.name)) = fun _p => true := by
        funext _p
        simp
      rw [this, List.filter_true]
    · rw [if_neg (by simpa using hk)]
      have hall : ∀ pk ∈ st.publication_keyword,
          (((st.publication.filter fun p =>
              k.id == pk.keyword_id && pk.publication_id == p.id &&
                decide (y ≤ p.year)).map
            fun _p => ((k.id, k.name) : String × String)).filter
              fun r => r.1 == kid).length = 0 := by
        intro pk _
        rw [List.filter_map, List.length_map]
        have hcomp : ((fun r : String × String => r.1 == kid) ∘
            fun _p : PublicationRow => (k.id, k.name)) = fun _p => false := by
          funext _p
          simpa using hk
        rw [hcomp, List.filter_false]
        rfl
      rw [sumBy_congr (g := fun _ => (0 : ℕ)) hall, sumBy_zero]
  have hmain : (sumBy st.keyword fun k =>
      (((st.publication_keyword.flatMap fun pk =>
        (st.publication.filter fun p =>
          k.id == pk.keyword_id && pk.publication_id == p.id &&
            decide (y ≤ p.year)).map
          fun _p => ((k.id, k.name) : String × String)).filter
            fun r => r.1 == kid)).length) =
      sumBy st.keyword fun k =>
        if k.id == kid then
          sumBy (st.publication_keyword.filter fun pk =>
            kid == pk.keyword_id) fun pk =>
            (st.publication.filter fun p =>
              pk.publication_id == p.id && decide (y ≤ p.year)).length
        else 0 := by
    apply sumBy_congr
    intro k _
    rw [length_filter_flatMap]
    exact hinner k
  rw [hmain, sumBy_guard, sumBy_const_nat]

theorem fmpk_sql_rows_mem {st : MySQLState} {y : ℤ} {r : String × String}
    (hr : r ∈ fmpk_sql_rows st y) : ∃ k ∈ st.keyword, r = (k.id, k.name) := by
  unfold fmpk_sql_rows at hr
  rcases List.mem_flatMap.1 hr with ⟨k, hk, hr⟩
  rcases List.mem_flatMap.1 hr with ⟨pk, _, hr⟩
  rcases List.mem_map.1 hr with ⟨p, _, rfl⟩
  exact ⟨k, hk, rfl⟩

/-- The claim's fixture on the SQL side: keywords A and B, three
publications of 2016 carrying A and one of 2019 carrying B. -/
def fixC6st : MySQLState :=
  { university := [], faculty := [],
    keyword := [⟨"1", "A", none⟩, ⟨"2", "B", none⟩], faculty_keyword := [],
    publication := [⟨1, 2016, 0⟩, ⟨2, 2016, 0⟩, ⟨3, 2016, 0⟩, ⟨4, 2019, 0⟩],
    publication_keyword :=
      [⟨1, "1", 0⟩, ⟨2, "1", 0⟩, ⟨3, "1", 0⟩, ⟨4, "2", 0⟩],
    faculty_publication := [], faculty_has_col := true,
    keyword_has_col := true }

/-- The claim's fixture on the document side. -/
def fixC6db : MongoDB :=
  { faculty := [],
    publications := [⟨1, 2016, 0, [⟨"A", 0⟩]⟩, ⟨2, 2016, 0, [⟨"A", 0⟩]⟩,
      ⟨3, 2016, 0, [⟨"A", 0⟩]⟩, ⟨4, 2019, 0, [⟨"B", 0⟩]⟩] }

/-- One 2016 publication listing keyword name A twice. -/
def cexC6db : MongoDB :=
  { faculty := [], publications := [⟨1, 2016, 0, [⟨"A", 0⟩, ⟨"A", 0⟩]⟩] }

/-- Two keyword ids sharing the name A, one publication linked to both. -/
def cexC6st : MySQLState :=
  { university := [], faculty := [],
    keyword := [⟨"1", "A", none⟩, ⟨"2", "A", none⟩], faculty_keyword := [],
    publication := [⟨1, 2016, 0⟩],
    publication_keyword := [⟨1, "1", 0⟩, ⟨1, "2", 0⟩],
    faculty_publication := [], faculty_has_col := true,
    keyword_has_col := true }

/-- C6 (amended): `find_most_popular_keywords_mongo` groups the unwound
(publication, keyword-entry) pairs with `year ≥ Y` by keyword name and
counts pairs (a publication listing a name twice counts twice);
`find_most_popular_keywords_sql` groups the join rows by keyword id —
not name — labelling each entry with that keyword row's name (so two ids
sharing a name yield separate entries) and counting join rows; both sort
counts descending and return at most 10 entries; and on the claim's
fixture both return `[("A",3),("B",1)]` in that order. -/
theorem C6_keyword_popularity_topk :
    (∀ (db : MongoDB) (y : ℤ) (e : String × ℕ),
      e ∈ find_most_popular_keywords_mongo db y →
      e.2 = mongoNamePairCount db y e.1) ∧
    (∀ (db : MongoDB) (y : ℤ),
      ((find_most_popular_keywords_mongo db y).map Prod.snd).Sorted
        (· ≥ ·)) ∧
    (∀ (db : MongoDB) (y : ℤ),
      (find_most_popular_keywords_mongo db y).length ≤ 10) ∧
    (∀ (st : MySQLState) (y : ℤ) (e : String × ℕ),
      e ∈ find_most_popular_keywords_sql st y →
      ∃ k ∈ st.keyword, e.1 = k.name ∧ e.2 = sqlJoinCount st y k.id) ∧
    (∀ (st : MySQLState) (y : ℤ),
      ((find_most_popular_keywords_sql st y).map Prod.snd).Sorted (· ≥ ·)) ∧
    (∀ (st : MySQLState) (y : ℤ),
      (find_most_popular_keywords_sql st y).length ≤ 10) ∧
    find_most_popular_keywords_sql fixC6st 2015 = [("A", 3), ("B", 1)] ∧
    find_most_popular_keywords_mongo fixC6db 2015 = [("A", 3), ("B", 1)] := by
  refine ⟨?_, ?_, ?_, ?_, ?_, ?_, ?_, ?_⟩
  · intro db y e he
    unfold find_most_popular_keywords_mongo at he
    rcases List.mem_map.1 (mem_of_mem_take_sortPairsDesc he) with ⟨n, _, rfl⟩
    exact fmpk_mongo_count db y n
  · intro db y
    unfold find_most_popular_keywords_mongo
    exact take_sortPairsDesc_sorted_snd _ _
  · intro db y
    unfold find_most_popular_keywords_mongo
    exact List.length_take_le _ _
  · intro st y e he
    unfold find_most_popular_keywords_sql at he
    rcases List.mem_map.1 (mem_of_mem_take_sortPairsDesc he) with ⟨kid, hkid, rfl⟩
    rcases List.mem_map.1 (mem_dedupF.1 hkid) with ⟨r, hr, hr1⟩
    rcases hfind : (fmpk_sql_rows st y).find? (fun r => r.1 == kid) with _ | r'
    · exfalso
      have := List.find?_eq_none.1 hfind r hr
      simp [hr1] at this
    · have hr' := List.mem_of_find?_eq_some hfind
      have hpr : r'.1 = kid := by
        have := List.find?_some hfind
        simpa using this
      rcases fmpk_sql_rows_mem hr' with ⟨k', hk', rfl⟩
      refine ⟨k', hk', ?_, ?_⟩
      · simp [hfind]
      · simp only [hpr.symm]
        exact fmpk_sql_count st y k'.id
  · intro st y
    unfold find_most_popular_keywords_sql
    exact take_sortPairsDesc_sorted_snd _ _
  · intro st y
    unfold find_most_popular_keywords_sql
    exact List.length_take_le _ _
  · decide
  · decide

/-- Witness for C6: the theorem applied to the fixture entry `("A", 3)` of
each backend. -/
theorem C6_keyword_popularity_topk_witness :
    (3 : ℕ) = mongoNamePairCount fixC6db 2015 "A" ∧
    (∃ k ∈ fixC6st.keyword, "A" = k.name ∧
      (3 : ℕ) = sqlJoinCount fixC6st 2015 k.id) :=
  ⟨C6_keyword_popularity_topk.1 fixC6db 2015 ("A", 3) (by decide),
    C6_keyword_popularity_topk.2.2.2.1 fixC6st 2015 ("A", 3) (by decide)⟩

/-- Counterexample to C6 as stated: the claim's "group publications with
year >= Y by keyword name, count them" predicts `[("A", 1)]` for both
backends on these inputs, but the document pipeline counts unwound pairs
(yielding 2 for one publication that lists A twice) and the SQL query
groups by keyword id (yielding two separate entries for one name). -/
theorem C6_counterexample :
    find_most_popular_keywords_mongo cexC6db 2015 = [("A", 2)] ∧
    popularPublicationCountByName cexC6db 2015 "A" = 1 ∧
    find_most_popular_keywords_sql cexC6st 2015 = [("A", 1), ("A", 1)] := by
  decide

end AcademicDash

namespace AcademicDash

/-! ### Claim C2 — which queries honour the soft-delete flags -/

/-- A state with one university, one faculty member with one matching
keyword, parameterised by the soft-delete flags of that faculty and
keyword. -/
def oneRowState (ff fk : Option Bool) : MySQLState :=
  { university := [⟨1, "U", ""⟩],
    faculty := [⟨1, "bob", 1, ff⟩],
    keyword := [⟨"1", "ml", fk⟩],
    faculty_keyword := [⟨1, "1", 60⟩], publication := [],
    publication_keyword := [], faculty_publication := [],
    faculty_has_col := true, keyword_has_col := true }

theorem fuwk_rows_ignores_flags (st : MySQLState) (b : Option Bool)
    (kw : String) : fuwk_rows (setAllFlags st b) kw = fuwk_rows st kw := by
  unfold fuwk_rows setAllFlags
  simp only [List.flatMap_map, List.filter_map, List.map_map,
    Function.comp_def]

/-- C2 (amended): among the cited queries only
`find_faculty_relevant_to_keyword` filters on a soft-delete flag — every
row it returns is produced by a faculty row whose `is_deleted` is exactly
`FALSE`, so a soft-deleted faculty never appears there; `get_all_keywords`
lists every keyword name including soft-deleted ones, and
`find_universities_with_faculties_working_keywords` is completely
insensitive to the `is_deleted` flags, counting soft-deleted faculty like
any other. -/
theorem C2_soft_delete_visibility :
    (∀ (st : MySQLState) (kw : String)
      (e : String × String × String),
      e ∈ find_faculty_relevant_to_keyword st kw →
      ∃ f ∈ st.faculty, f.is_deleted = some false ∧
        e.1 = toString f.id ∧ e.2.1 = f.name) ∧
    (∀ (st : MySQLState) (k : KeywordRow), k ∈ st.keyword →
      k.name ∈ get_all_keywords st) ∧
    (∀ (st : MySQLState) (b : Option Bool) (kw : String),
      find_universities_with_faculties_working_keywords (setAllFlags st b) kw =
        find_universities_with_faculties_working_keywords st kw) := by
  refine ⟨?_, ?_, ?_⟩
  · intro st kw e he
    unfold find_faculty_relevant_to_keyword at he
    by_cases hcol : st.faculty_has_col = false
    · rw [if_pos hcol] at he
      exact absurd he (List.not_mem_nil e)
    · rw [if_neg hcol] at he
      rcases List.mem_flatMap.1 he with ⟨u, hu, he⟩
      rcases List.mem_flatMap.1 he with ⟨f, hf, he⟩
      rcases List.mem_flatMap.1 he with ⟨fk, hfk, he⟩
      rcases List.mem_map.1 he with ⟨k, hk, rfl⟩
      have hpred := (List.mem_filter.1 hk).2
      simp only [Bool.and_eq_true, beq_iff_eq] at hpred
      exact ⟨f, hf, hpred.2, rfl, rfl⟩
  · intro st k hk
    unfold get_all_keywords
    exact mem_dedupF.2 (List.mem_map_of_mem _ hk)
  · intro st b kw
    unfold find_universities_with_faculties_working_keywords
    rw [fuwk_rows_ignores_flags]

/-- Witness for C2 at a concrete state: the output row of an unflagged
faculty is traced back to it, and a keyword row's name is listed. -/
theorem C2_soft_delete_visibility_witness :
    (∃ f ∈ (oneRowState (some false) (some false)).faculty,
      f.is_deleted = some false ∧
        ("1", "bob", "U").1 = toString f.id ∧
        ("1", "bob", "U").2.1 = f.name) ∧
    "ml" ∈ get_all_keywords (oneRowState (some false) (some false)) :=
  ⟨C2_soft_delete_visibility.1 _ "ml" ("1", "bob", "U") (by decide),
    C2_soft_delete_visibility.2.1 _ ⟨"1", "ml", some false⟩ (by decide)⟩

/-- Counterexample to C2 as stated: in a state whose only keyword and only
faculty are soft-deleted, the keyword still appears in the keyword listing
`get_all_keywords` and the faculty is still counted by the aggregation
`find_universities_with_faculties_working_keywords`. -/
theorem C2_counterexample :
    get_all_keywords (oneRowState (some true) (some true)) = ["ml"] ∧
    find_universities_with_faculties_working_keywords
      (oneRowState (some true) (some true)) "ml" = [("U", 1)] := by
  decide

/-! ### Claim C8 — bounded connection retry -/

/-- C8: `get_db_connection` and `get_mongo_connection` attempt to connect
at most 3 times with 2 seconds of sleep between consecutive attempts: when
the first `k - 1` attempts fail and attempt `k ≤ 3` succeeds, the
connection of attempt `k` is returned after `2·(k-1)` seconds of sleep; and
when all 3 attempts fail, the third attempt's error is re-raised after the
4 seconds slept between the attempts. -/
theorem C8_connection_retry :
    (∀ (E C : Type) (oracle : ℕ → Except E C) (k : ℕ) (c : C),
      1 ≤ k → k ≤ 3 →
      (∀ i, 1 ≤ i → i < k → ∃ e, oracle i = .error e) →
      oracle k = .ok c →
      get_db_connection oracle = (.ok c, 2 * (k - 1)) ∧
      get_mongo_connection oracle = (.ok c, 2 * (k - 1))) ∧
    (∀ (E C : Type) (oracle : ℕ → Except E C) (e₁ e₂ e₃ : E),
      oracle 1 = .error e₁ → oracle 2 = .error e₂ → oracle 3 = .error e₃ →
      get_db_connection oracle = (.error e₃, 4) ∧
      get_mongo_connection oracle = (.error e₃, 4)) := by
  constructor
  · intro E C oracle k c hk1 hk3 hfail hok
    have hgoal : retryLoop oracle 1 3 = (.ok c, 2 * (k - 1)) := by
      interval_cases k
      · simp [retryLoop, hok]
      · rcases hfail 1 (by omega) (by omega) with ⟨e₁, he₁⟩
        simp [retryLoop, he₁, hok]
      · rcases hfail 1 (by omega) (by omega) with ⟨e₁, he₁⟩
        rcases hfail 2 (by omega) (by omega) with ⟨e₂, he₂⟩
        simp [retryLoop, he₁, he₂, hok]
    exact ⟨hgoal, hgoal⟩
  · intro E C oracle e₁ e₂ e₃ h₁ h₂ h₃
    have hgoal : retryLoop oracle 1 3 = (.error e₃, 4) := by
      simp [retryLoop, h₁, h₂, h₃]
    exact ⟨hgoal, hgoal⟩

/-- Witness for C8: a connector failing once then succeeding yields the
second attempt's connection after one 2-second sleep; a connector that
always fails propagates its final error after two sleeps. -/
theorem C8_connection_retry_witness :
    get_db_connection
        (fun n => if n = 2 then .ok () else .error "boom") =
      (Except.ok (), 2) ∧
    get_mongo_connection (fun _ : ℕ => (Except.error "down" : Except String Unit)) =
      (.error "down", 4) :=
  ⟨(C8_connection_retry.1 String Unit
      (fun n => if n = 2 then .ok () else .error "boom") 2 ()
      (by decide) (by decide)
      (fun i h1 h2 => ⟨"boom", by
        have hi : i = 1 := by omega
        subst hi
        rfl⟩)
      rfl).1,
    (C8_connection_retry.2 String Unit
      (fun _ => .error "down") "down" "down" "down" rfl rfl rfl).2⟩

/-! ### Claim C7 — degrade to empty on backend errors -/

/-- C7: on any backend error — connection acquisition failing after the
retries are exhausted, or query execution failing — every list-returning
query function returns `[]` and every count-returning query function
returns `0`; no exception escapes (the wrappers are total functions into
plain values). -/
theorem C7_degrade_to_default_on_error :
    ∀ (e : DBError) (q : Bool) (stq : MySQLState) (dbq : MongoDB) (y : ℤ)
      (kw aff u : String) (a : Bool),
      find_most_popular_keywords_sql_run ⟨.error e, q⟩ y = [] ∧
      find_most_popular_keywords_sql_run ⟨.ok stq, true⟩ y = [] ∧
      get_all_keywords_run ⟨.error e, q⟩ = [] ∧
      get_all_keywords_run ⟨.ok stq, true⟩ = [] ∧
      find_universities_with_faculties_working_keywords_run ⟨.error e, q⟩ kw = [] ∧
      find_universities_with_faculties_working_keywords_run ⟨.ok stq, true⟩ kw = [] ∧
      find_faculty_relevant_to_keyword_run ⟨.error e, q⟩ kw = [] ∧
      find_faculty_relevant_to_keyword_run ⟨.ok stq, true⟩ kw = [] ∧
      find_top_faculties_with_highest_KRC_keyword_sql_run ⟨.error e, q⟩ kw u = [] ∧
      find_top_faculties_with_highest_KRC_keyword_sql_run ⟨.ok stq, true⟩ kw u = [] ∧
      get_faculty_count_run ⟨.error e, q⟩ a = 0 ∧
      get_faculty_count_run ⟨.ok stq, true⟩ a = 0 ∧
      get_keyword_count_mysql_run ⟨.error e, q⟩ a = 0 ∧
      get_keyword_count_mysql_run ⟨.ok stq, true⟩ a = 0 ∧
      find_most_popular_keywords_mongo_run ⟨.error e, q⟩ y = [] ∧
      find_most_popular_keywords_mongo_run ⟨.ok dbq, true⟩ y = [] ∧
      find_top_faculties_with_highest_KRC_keyword_run ⟨.error e, q⟩ kw aff = [] ∧
      find_top_faculties_with_highest_KRC_keyword_run ⟨.ok dbq, true⟩ kw aff = [] ∧
      university_collaborate_with_mongo_run ⟨.error e, q⟩ u = [] ∧
      university_collaborate_with_mongo_run ⟨.ok dbq, true⟩ u = [] := by
  intro e q stq dbq y kw aff u a
  refine ⟨rfl, rfl, rfl, rfl, rfl, rfl, rfl, rfl, rfl, rfl,
    rfl, rfl, rfl, rfl, rfl, rfl, rfl, rfl, rfl, rfl⟩

/-! ### Claim C9 — idempotent schema evolution -/

/-- C9: the `is_deleted` check-and-add step inside `get_faculty_count` and
`get_keyword_count_mysql` is idempotent: repeating it never errors (the
step is a total function whose failure leg returns the state unchanged) and
never duplicates the column — re-running it returns the same state and
performs no `ALTER`; after a successful first run the column exists; and a
failed `ALTER` is swallowed, leaving the state unchanged. -/
theorem C9_schema_evolution_idempotent :
    (∀ (st : MySQLState) (a : Bool),
      faculty_ensure_is_deleted_column a
          (faculty_ensure_is_deleted_column a st).1 =
        ((faculty_ensure_is_deleted_column a st).1, false)) ∧
    (∀ st : MySQLState,
      (faculty_ensure_is_deleted_column true st).1.faculty_has_col = true) ∧
    (∀ st : MySQLState,
      faculty_ensure_is_deleted_column false st = (st, false)) ∧
    (∀ (st : MySQLState) (a : Bool),
      keyword_ensure_is_deleted_column a
          (keyword_ensure_is_deleted_column a st).1 =
        ((keyword_ensure_is_deleted_column a st).1, false)) ∧
    (∀ st : MySQLState,
      (keyword_ensure_is_deleted_column true st).1.keyword_has_col = true) ∧
    (∀ st : MySQLState,
      keyword_ensure_is_deleted_column false st = (st, false)) := by
  refine ⟨?_, ?_, ?_, ?_, ?_, ?_⟩
  · intro st a
    by_cases h : st.faculty_has_col
    · simp [faculty_ensure_is_deleted_column, h]
    · cases a
      · simp [faculty_ensure_is_deleted_column, h]
      · simp [faculty_ensure_is_deleted_column, h, provisionFacultyCol]
  · intro st
    by_cases h : st.faculty_has_col
    · simp [faculty_ensure_is_deleted_column, h]
    · simp [faculty_ensure_is_deleted_column, h, provisionFacultyCol]
  · intro st
    by_cases h : st.faculty_has_col
    · simp [faculty_ensure_is_deleted_column, h]
    · simp [faculty_ensure_is_deleted_column, h]
  · intro st a
    by_cases h : st.keyword_has_col
    · simp [keyword_ensure_is_deleted_column, h]
    · cases a
      · simp [keyword_ensure_is_deleted_column, h]
      · simp [keyword_ensure_is_deleted_column, h, provisionKeywordCol]
  · intro st
    by_cases h : st.keyword_has_col
    · simp [keyword_ensure_is_deleted_column, h]
    · simp [keyword_ensure_is_deleted_column, h, provisionKeywordCol]
  · intro st
    by_cases h : st.keyword_has_col
    · simp [keyword_ensure_is_deleted_column, h]
    · simp [keyword_ensure_is_deleted_column, h]

/-! ### Claim C10 — empty/whitespace keyword id is rejected -/

/-- C10: for an empty or whitespace-only `keyword_id`,
`delete_keyword_mysql` returns `False` without executing any `UPDATE`: the
resulting state is exactly the input state after the idempotent column
provisioning (and exactly the input state when the column already
exists). -/
theorem C10_delete_keyword_blank_id (a : Bool) (st : MySQLState)
    (kid : String) (hblank : pyStrip kid = "") :
    delete_keyword_mysql a st kid =
      (false, (keyword_ensure_is_deleted_column a st).1) ∧
    (st.keyword_has_col = true → delete_keyword_mysql a st kid = (false, st)) := by
  constructor
  · simp [delete_keyword_mysql, hblank]
  · intro hcol
    simp [delete_keyword_mysql, hblank, keyword_ensure_is_deleted_column, hcol]

/-- Witness for C10 at a concrete state and the id `" "`. -/
theorem C10_delete_keyword_blank_id_witness :
    pyStrip " " = "" ∧
    delete_keyword_mysql true
      { university := [], faculty := [],
        keyword := [⟨"7", "ml", some false⟩], faculty_keyword := [],
        publication := [], publication_keyword := [],
        faculty_publication := [], faculty_has_col := true,
        keyword_has_col := true } " " =
      (false,
        { university := [], faculty := [],
          keyword := [⟨"7", "ml", some false⟩], faculty_keyword := [],
          publication := [], publication_keyword := [],
          faculty_publication := [], faculty_has_col := true,
          keyword_has_col := true }) :=
  ⟨by decide,
    (C10_delete_keyword_blank_id true _ " " (by decide)).2 (by decide)⟩

end AcademicDash
